import Mathlib

/-!
# VIC-20 VIA1 adapter and Xv YUV display: a shallow embedding

The first part embeds the machine adapter of `vic20via1.c`: the callbacks the
VIA engine invokes for port reads and writes, interrupts, handshake lines,
reset and snapshot restore.  Every procedure is a pure function of

* the VIA context it is handed (register file, `cb2_is_input`),
* the file-level statics (`userport_pa6`, `userport_pb`, ...),
* the values the external collaborators return when they are read,

and yields its return value, the new statics and the ordered list of calls it
makes to external functions.

The second part embeds, from `renderxv.c`, `display_yuv_image` with its
32-bit unsigned arithmetic made explicit, the renderer dispatch of
`render_yuv_image` and the block normalisation at the head of `render_4_2_2`
and `render_4_1_1`.

The third part embeds the format lookup `get_format_index_by_name` of
`ffmpegwidget.c`.
-/

namespace Vic20Via1

/-! ## Machine integers -/

/-- An 8-bit unsigned value, the C type of the same name. -/
abbrev uint8_t := Fin 256

/-- Conversion of an integer value to `uint8_t`: reduction modulo 256. -/
def u8 (n : Nat) : uint8_t := ⟨n % 256, Nat.mod_lt n (by decide)⟩

/-- Low eight bits of the C expression `~x` for a promoted `uint8_t` operand.
Every use in this file is either masked by an 8-bit value or stored into a
`uint8_t`, so the sign-extended upper bits of the promoted `int` never matter. -/
def not8 (x : Nat) : Nat := x ^^^ 0xff

/-! ## External vocabulary -/

/-- Handshake flag handed to `store_userport_pbx`.  The two constants come from
`userport.h`, which is not among the sources; they are kept symbolic and only
their being different is used. -/
inductive UserportPulse
  | USERPORT_NO_PULSE
  | USERPORT_PULSE
  deriving DecidableEq, Repr

/-- Joystick port selector (`joyport.h`); the adapter only ever names port 1. -/
inductive JoyportId
  | JOYPORT_1
  deriving DecidableEq, Repr

/-- Tape port selector (`tapeport.h`); the adapter only ever names port 1. -/
inductive TapeportId
  | TAPEPORT_PORT_1
  deriving DecidableEq, Repr

/-- Interrupt status block the adapter forwards to; always the main CPU's. -/
inductive IntStatus
  | maincpu_int_status
  deriving DecidableEq, Repr

/-- Interrupt line kinds of `interrupt.h`: non-maskable and maskable. -/
inductive IrqLine
  | IK_NMI
  | IK_IRQ
  deriving DecidableEq, Repr

/-- Indices into the VIA register file that the adapter reads (`via.h`). -/
inductive ViaReg
  | VIA_PRB
  | VIA_PRA
  | VIA_DDRB
  | VIA_DDRA
  | VIA_PCR
  deriving DecidableEq, Repr

/-- A call to a function outside `vic20via1.c`, with its evaluated arguments.
Integer arguments are recorded as the C `int` value of the argument
expression. -/
inductive Call
  | store_userport_pbx (val : Int) (pulse : UserportPulse)
  | store_userport_pa2 (val : Int)
  | read_userport_pbx (orig : Int)
  | interrupt_set_nmi (cs : IntStatus) (int_num : Nat) (value : Int) (rclk : Nat)
  | interrupt_restore_nmi (cs : IntStatus) (int_num : Nat) (value : Int)
  | interrupt_set_irq (cs : IntStatus) (int_num : Nat) (value : Int) (rclk : Nat)
  | interrupt_restore_irq (cs : IntStatus) (int_num : Nat) (value : Int)
  | read_joyport_dig (port : JoyportId)
  | store_joyport_dig (port : JoyportId) (val : Int) (mask : Int)
  | vic_set_light_pen (clk : Nat) (state : Int)
  | iec_pa_write (byte : Int)
  | iec_pa_read
  | tapeport_set_sense_out (port : TapeportId) (v : Int)
  | tapeport_set_motor (port : TapeportId) (v : Int)
  deriving DecidableEq, Repr

/-- Values the external collaborators hand back during one callback. -/
structure Env where
  /-- result of `read_joyport_dig(JOYPORT_1)` -/
  joyport_dig : uint8_t
  /-- result of `iec_pa_read()` -/
  iec_pa : uint8_t
  /-- behaviour of `read_userport_pbx` on the byte it is given -/
  userport_pbx : uint8_t → uint8_t
  /-- current value of `maincpu_clk` -/
  maincpu_clk : Nat

/-! ## State -/

/-- File-level variables of `vic20via1.c`. -/
structure Statics where
  vic20_vflihack_userport : Int
  userport_pa6 : Int
  userport_pb : Int
  tape_sense : Int
  tape_write_in : Int
  tape_motor_in : Int
  deriving DecidableEq, Repr

/-- The static initialisers. -/
def Statics.initial : Statics :=
  { vic20_vflihack_userport := 0xff
    userport_pa6 := 1
    userport_pb := 0xff
    tape_sense := 0
    tape_write_in := 0
    tape_motor_in := 0 }

/-- Functions of `vic20via1.c` whose address can be stored in a callback slot. -/
inductive AdapterFn
  | undump_pra | undump_prb | undump_pcr | undump_acr
  | store_pra | store_prb | store_pcr | store_acr | store_sr | store_t2l
  | read_pra | read_prb
  | set_int | restore_int
  | set_ca2 | set_cb2
  | reset
  deriving DecidableEq, Repr

/-- Objects whose address the context keeps. -/
inductive GlobalRef
  | maincpu_rmw_flag
  | maincpu_clk
  deriving DecidableEq, Repr

/-- The part of `via_context_t` that `vic20via1.c` touches.  A pointer field is
an `Option`: `none` is the null pointer. The callback slots are the seventeen
of the adapter capability table. -/
structure via_context_t where
  via : ViaReg → uint8_t
  cb2_is_input : Int
  write_offset : Int
  irq_line : IrqLine
  prv : Option Nat
  context : Option Nat
  rmw_flag : Option GlobalRef
  clk_ptr : Option GlobalRef
  myname : Option String
  my_module_name : Option String
  undump_pra : Option AdapterFn
  undump_prb : Option AdapterFn
  undump_pcr : Option AdapterFn
  undump_acr : Option AdapterFn
  store_pra : Option AdapterFn
  store_prb : Option AdapterFn
  store_pcr : Option AdapterFn
  store_acr : Option AdapterFn
  store_sr : Option AdapterFn
  store_t2l : Option AdapterFn
  read_pra : Option AdapterFn
  read_prb : Option AdapterFn
  set_int : Option AdapterFn
  restore_int : Option AdapterFn
  set_ca2 : Option AdapterFn
  set_cb2 : Option AdapterFn
  reset : Option AdapterFn

/-- What a callback leaves behind: return value, statics, external calls in
program order. -/
structure Outcome (α : Type) where
  ret : α
  statics : Statics
  calls : List Call

/-! ## The adapter procedures -/

/-- `update_portbits`: one user-port write of `userport_pb`, flagged by the
level of `userport_pa6`. -/
def update_portbits (s : Statics) : List Call :=
  [Call.store_userport_pbx s.userport_pb
    (if s.userport_pa6 ≠ 0 then UserportPulse.USERPORT_NO_PULSE
     else UserportPulse.USERPORT_PULSE)]

/-- `read_pra`. -/
def read_pra (via_context : via_context_t) (_addr : Nat) (env : Env) (s : Statics) :
    Outcome uint8_t :=
  let joy_bits0 : uint8_t := env.joyport_dig
  let joy_bits1 : uint8_t :=
    u8 (((joy_bits0.val &&& 0x7) <<< 2) ||| ((joy_bits0.val &&& 0x10) <<< 1))
  let joy_bits : uint8_t :=
    u8 (joy_bits1.val ||| (if s.tape_sense ≠ 0 then 0 else 0x40))
  let pra := (via_context.via ViaReg.VIA_PRA).val
  let ddra := (via_context.via ViaReg.VIA_DDRA).val
  let byte : uint8_t :=
    u8 ((pra &&& ddra) ||| ((env.iec_pa.val ||| joy_bits.val) &&& not8 ddra))
  { ret := byte
    statics := s
    calls := [Call.read_joyport_dig JoyportId.JOYPORT_1, Call.iec_pa_read] }

/-- `read_prb`. -/
def read_prb (via_context : via_context_t) (env : Env) (s : Statics) :
    Outcome uint8_t :=
  let prb := (via_context.via ViaReg.VIA_PRB).val
  let ddrb := (via_context.via ViaReg.VIA_DDRB).val
  let byte : uint8_t := u8 (prb ||| not8 ddrb)
  { ret := env.userport_pbx byte
    statics := s
    calls := [Call.read_userport_pbx byte.val] }

/-- `via1_set_tape_sense`. -/
def via1_set_tape_sense (v : Int) (s : Statics) : Statics :=
  { s with tape_sense := v }

/-- `via1_set_tape_write_in`. -/
def via1_set_tape_write_in (v : Int) (s : Statics) : Statics :=
  { s with tape_write_in := v }

/-- `via1_set_tape_motor_in`. -/
def via1_set_tape_motor_in (v : Int) (s : Statics) : Statics :=
  { s with tape_motor_in := v }

/-- `via1_internal_lightpen_check`: reads the joystick port, masks it with the
port A value and reports the light-pen level `!(b & 0x20)`. -/
def via1_internal_lightpen_check (pa : uint8_t) (env : Env) : List Call :=
  let b0 : uint8_t := env.joyport_dig
  let b : uint8_t := u8 (b0.val &&& pa.val)
  [Call.read_joyport_dig JoyportId.JOYPORT_1,
   Call.vic_set_light_pen env.maincpu_clk (if b.val &&& 0x20 = 0 then 1 else 0)]

/-- `via1_check_lightpen`. -/
def via1_check_lightpen (via1 : via_context_t) (env : Env) : List Call :=
  let pa : uint8_t :=
    u8 ((via1.via ViaReg.VIA_PRA).val ||| not8 (via1.via ViaReg.VIA_DDRA).val)
  via1_internal_lightpen_check pa env

/-- `set_ca2`: empty body. -/
def set_ca2 (_via_context : via_context_t) (_state : Int) (s : Statics) : Outcome Unit :=
  { ret := (), statics := s, calls := [] }

/-- `set_cb2`: CB2 goes to user-port pin M unless CB2 is an input. -/
def set_cb2 (via_context : via_context_t) (state : Int) (_offset : Int) (s : Statics) :
    Outcome Unit :=
  if via_context.cb2_is_input = 0 then
    { ret := (), statics := s, calls := [Call.store_userport_pa2 state] }
  else
    { ret := (), statics := s, calls := [] }

/-- `set_int`. -/
def set_int (_via_context : via_context_t) (int_num : Nat) (value : Int) (rclk : Nat)
    (s : Statics) : Outcome Unit :=
  { ret := ()
    statics := s
    calls := [Call.interrupt_set_nmi IntStatus.maincpu_int_status int_num value rclk] }

/-- `restore_int`. -/
def restore_int (_via_context : via_context_t) (int_num : Nat) (value : Int)
    (s : Statics) : Outcome Unit :=
  { ret := ()
    statics := s
    calls := [Call.interrupt_restore_nmi IntStatus.maincpu_int_status int_num value] }

/-- `undump_pra`. -/
def undump_pra (_via_context : via_context_t) (byte : uint8_t) (s : Statics) :
    Outcome Unit :=
  { ret := (), statics := s, calls := [Call.iec_pa_write byte.val] }

/-- `store_pra`. -/
def store_pra (_via_context : via_context_t) (byte : uint8_t) (_myoldpa : uint8_t)
    (_addr : Nat) (env : Env) (s : Statics) : Outcome Unit :=
  let joy_bits : uint8_t :=
    u8 (((byte.val &&& 0x20) >>> 1) ||| ((byte.val &&& 0x1c) >>> 2))
  let pa6 : Int := if byte.val &&& 0x40 ≠ 0 then 1 else 0
  let s1 : Statics := { s with userport_pa6 := pa6 }
  { ret := ()
    statics := s1
    calls :=
      via1_internal_lightpen_check byte env ++
      [Call.iec_pa_write byte.val,
       Call.store_joyport_dig JoyportId.JOYPORT_1 joy_bits.val 0x17,
       Call.tapeport_set_sense_out TapeportId.TAPEPORT_PORT_1 pa6] ++
      update_portbits s1 }

/-- `undump_prb`. -/
def undump_prb (_via_context : via_context_t) (byte : uint8_t) (s : Statics) :
    Outcome Unit :=
  let s1 : Statics := { s with userport_pb := byte.val }
  { ret := (), statics := s1, calls := update_portbits s1 }

/-- `store_prb`. -/
def store_prb (_via_context : via_context_t) (byte : uint8_t) (_myoldpb : uint8_t)
    (_addr : Nat) (s : Statics) : Outcome Unit :=
  let s1 : Statics := { s with vic20_vflihack_userport := ((byte.val &&& 0x0f : Nat) : Int) }
  let s2 : Statics := { s1 with userport_pb := byte.val }
  { ret := (), statics := s2, calls := update_portbits s2 }

/-- `undump_pcr`: empty body. -/
def undump_pcr (_via_context : via_context_t) (_byte : uint8_t) (s : Statics) :
    Outcome Unit :=
  { ret := (), statics := s, calls := [] }

/-- `reset`. -/
def reset (_via_context : via_context_t) (s : Statics) : Outcome Unit :=
  let s1 : Statics := { s with userport_pb := 0xff }
  let s2 : Statics := { s1 with userport_pa6 := 1 }
  { ret := ()
    statics := s2
    calls := [Call.store_userport_pbx 0xff UserportPulse.USERPORT_NO_PULSE,
              Call.store_userport_pa2 1] }

/-- The local `tmp` of `store_pcr` after its two adjustments: bit 1 forced to 1
unless `(byte & 0x0c) == 0x0c`, bit 5 forced to 1 unless `(byte & 0xc0) == 0xc0`
("set bit 1 and 5 to the real output values"). -/
def store_pcr_tmp (byte : uint8_t) : uint8_t :=
  let tmp0 : uint8_t := byte
  let tmp1 : uint8_t := if tmp0.val &&& 0x0c ≠ 0x0c then u8 (tmp0.val ||| 0x02) else tmp0
  if tmp1.val &&& 0xc0 ≠ 0xc0 then u8 (tmp1.val ||| 0x20) else tmp1

/-- `store_pcr`.  The local `tmp` is computed as in the source; the two calls
take their arguments from `byte`. -/
def store_pcr (via_context : via_context_t) (byte : uint8_t) (_addr : Nat)
    (s : Statics) : Outcome uint8_t :=
  if byte ≠ via_context.via ViaReg.VIA_PCR then
    let _tmp : uint8_t := store_pcr_tmp byte
    { ret := byte
      statics := s
      calls :=
        [Call.tapeport_set_motor TapeportId.TAPEPORT_PORT_1
           (if byte.val &&& 0x02 = 0 then 1 else 0),
         Call.store_userport_pa2 ((u8 ((byte.val &&& 0x20) >>> 5)).val : Nat)] }
  else
    { ret := byte, statics := s, calls := [] }

/-- `undump_acr`: empty body. -/
def undump_acr (_via_context : via_context_t) (_byte : uint8_t) (s : Statics) :
    Outcome Unit :=
  { ret := (), statics := s, calls := [] }

/-- `store_acr`: empty body. -/
def store_acr (_via_context : via_context_t) (_byte : uint8_t) (s : Statics) :
    Outcome Unit :=
  { ret := (), statics := s, calls := [] }

/-- `store_sr`: empty body. -/
def store_sr (_via_context : via_context_t) (_byte : uint8_t) (s : Statics) :
    Outcome Unit :=
  { ret := (), statics := s, calls := [] }

/-- `store_t2l`: empty body. -/
def store_t2l (_via_context : via_context_t) (_byte : uint8_t) (s : Statics) :
    Outcome Unit :=
  { ret := (), statics := s, calls := [] }

/-- `vic20via1_setup_context`.  `lib_malloc` is the freshly allocated context,
whose contents are arbitrary; `viacore_setup_context` is the engine's own
set-up routine, which lives outside this file and may rewrite any field. The
result is the context left in `machinecontext->via1`. -/
def vic20via1_setup_context (lib_malloc : via_context_t)
    (viacore_setup_context : via_context_t → via_context_t) : via_context_t :=
  let via0 : via_context_t := lib_malloc
  let via1 : via_context_t := { via0 with prv := none, context := none }
  let via2 : via_context_t :=
    { via1 with rmw_flag := some GlobalRef.maincpu_rmw_flag
                clk_ptr := some GlobalRef.maincpu_clk }
  let via3 : via_context_t :=
    { via2 with myname := some ("Via1"), my_module_name := some ("VIA1") }
  let via4 : via_context_t := viacore_setup_context via3
  let via5 : via_context_t := { via4 with write_offset := 0 }
  let via6 : via_context_t := { via5 with irq_line := IrqLine.IK_NMI }
  { via6 with
    undump_pra := some AdapterFn.undump_pra
    undump_prb := some AdapterFn.undump_prb
    undump_pcr := some AdapterFn.undump_pcr
    undump_acr := some AdapterFn.undump_acr
    store_pra := some AdapterFn.store_pra
    store_prb := some AdapterFn.store_prb
    store_pcr := some AdapterFn.store_pcr
    store_acr := some AdapterFn.store_acr
    store_sr := some AdapterFn.store_sr
    store_t2l := some AdapterFn.store_t2l
    read_pra := some AdapterFn.read_pra
    read_prb := some AdapterFn.read_prb
    set_int := some AdapterFn.set_int
    restore_int := some AdapterFn.restore_int
    set_ca2 := some AdapterFn.set_ca2
    set_cb2 := some AdapterFn.set_cb2
    reset := some AdapterFn.reset }

/-- Modelled from the spec: the adapter capability table.  The declaration of
`via_context_t` (`via.h`) is not among the sources, so the list of mandatory
slots is the seventeen of the specification's table, under the field names
`vic20via1_setup_context` assigns, in the order it assigns them. -/
def via_context_t.slots (via : via_context_t) : List (Option AdapterFn) :=
  [via.undump_pra, via.undump_prb, via.undump_pcr, via.undump_acr,
   via.store_pra, via.store_prb, via.store_pcr, via.store_acr, via.store_sr,
   via.store_t2l, via.read_pra, via.read_prb, via.set_int, via.restore_int,
   via.set_ca2, via.set_cb2, via.reset]

/-! ## Concrete inputs for worked examples -/

/-- A context whose registers all hold `fill`, with CB2 an output and every
pointer null. -/
def via_context_t.filled (fill : uint8_t) : via_context_t :=
  { via := fun _ => fill
    cb2_is_input := 0
    write_offset := 0
    irq_line := IrqLine.IK_IRQ
    prv := none
    context := none
    rmw_flag := none
    clk_ptr := none
    myname := none
    my_module_name := none
    undump_pra := none
    undump_prb := none
    undump_pcr := none
    undump_acr := none
    store_pra := none
    store_prb := none
    store_pcr := none
    store_acr := none
    store_sr := none
    store_t2l := none
    read_pra := none
    read_prb := none
    set_int := none
    restore_int := none
    set_ca2 := none
    set_cb2 := none
    reset := none }

/-- An environment in which every external read returns `v`. -/
def Env.const (v : uint8_t) : Env :=
  { joyport_dig := v
    iec_pa := v
    userport_pbx := fun _ => v
    maincpu_clk := 0 }

end Vic20Via1

namespace RenderXv

/-! ## `display_yuv_image` -/

/-- Conversion of an `unsigned int` value to `int` (two's complement). -/
def toInt32 (u : Nat) : Int :=
  if u % 2 ^ 32 < 2 ^ 31 then ((u % 2 ^ 32 : Nat) : Int)
  else ((u % 2 ^ 32 : Nat) : Int) - 2 ^ 32

/-- Conversion of an `int` value to `unsigned int`. -/
def toUInt32 (i : Int) : Nat := (i % 2 ^ 32).toNat

/-- The arguments of the put-image request; `shm` tells whether it is
`XvShmPutImage` (shared memory) or `XvPutImage`.  The opaque handles (display,
port, drawable, GC, image) are passed through untouched and are left out. -/
structure PutImage where
  shm : Bool
  src_x : Int
  src_y : Int
  src_w : Nat
  src_h : Nat
  dest_x : Int
  dest_y : Int
  dest_w : Nat
  dest_h : Nat
  deriving DecidableEq, Repr

/-- `display_yuv_image`.  `unsigned int` products and differences are taken
modulo 2^32; a division by zero has no defined result and yields `none`. -/
def display_yuv_image (shminfo : Bool) (src_x src_y : Int)
    (src_w src_h dest_w dest_h : Nat) : Option PutImage :=
  if (dest_w * src_h) % 2 ^ 32 < (src_w * dest_h) % 2 ^ 32 then
    if src_w = 0 then none
    else
      let dest_y0 : Int := toInt32 dest_h
      let dest_h1 : Nat := (dest_w * src_h) % 2 ^ 32 / src_w
      let dest_y1 : Int := toInt32 ((toUInt32 dest_y0 + 2 ^ 32 - dest_h1) % 2 ^ 32 / 2)
      some { shm := shminfo, src_x := src_x, src_y := src_y, src_w := src_w, src_h := src_h
             dest_x := 0, dest_y := dest_y1, dest_w := dest_w, dest_h := dest_h1 }
  else
    if src_h = 0 then none
    else
      let dest_x0 : Int := toInt32 dest_w
      let dest_w1 : Nat := (dest_h * src_w) % 2 ^ 32 / src_h
      let dest_x1 : Int := toInt32 ((toUInt32 dest_x0 + 2 ^ 32 - dest_w1) % 2 ^ 32 / 2)
      some { shm := shminfo, src_x := src_x, src_y := src_y, src_w := src_w, src_h := src_h
             dest_x := dest_x1, dest_y := 0, dest_w := dest_w1, dest_h := dest_h }

/-! ## `render_yuv_image` -/

/-- The six FOURCC format codes `render_yuv_image` switches on.  Their values
are defined in `renderxv.h`, which is not among the sources, so they are
parameters; as labels of one `switch` they are pairwise different. -/
structure FourccIds where
  FOURCC_UYVY : Nat
  FOURCC_YUY2 : Nat
  FOURCC_YVYU : Nat
  FOURCC_YV12 : Nat
  FOURCC_I420 : Nat
  FOURCC_IYUV : Nat
  deriving DecidableEq, Repr

/-- The case labels of the format switch, in source order. -/
def FourccIds.labels (ids : FourccIds) : List Nat :=
  [ids.FOURCC_UYVY, ids.FOURCC_YUY2, ids.FOURCC_YVYU,
   ids.FOURCC_YV12, ids.FOURCC_I420, ids.FOURCC_IYUV]

/-- The usual little-endian character codes of the six formats, as a concrete
table for worked examples. -/
def FourccIds.standard : FourccIds :=
  { FOURCC_UYVY := 0x59565955
    FOURCC_YUY2 := 0x32595559
    FOURCC_YVYU := 0x55595659
    FOURCC_YV12 := 0x32315659
    FOURCC_I420 := 0x30323449
    FOURCC_IYUV := 0x56555949 }

/-- Bit positions of the four components of a packed 4:2:2 word. -/
structure Shifts where
  shift_y0 : Int
  shift_u : Int
  shift_v : Int
  shift_y1 : Int
  deriving DecidableEq, Repr

/-- Plane numbers of the three components of a planar 4:1:1 image. -/
structure Planes where
  plane_y : Int
  plane_u : Int
  plane_v : Int
  deriving DecidableEq, Repr

/-- The geometry arguments every renderer receives unchanged.  The pointers
(`image`, `src`, `src_color`) are passed through untouched and are left out. -/
structure RenderArea where
  src_pitch : Int
  src_x : Int
  src_y : Int
  src_w : Nat
  src_h : Nat
  dest_x : Int
  dest_y : Int
  deriving DecidableEq, Repr

/-- A call to one of the eight renderers, with its evaluated arguments. -/
inductive RenderCall
  | render_4_2_2 (sh : Shifts) (a : RenderArea)
  | render2x_4_2_2 (sh : Shifts) (a : RenderArea) (double_scan : Int)
      (pal_scanline_shade : Int)
  | render_4_2_2_pal (sh : Shifts) (a : RenderArea) (pal_mode : Int)
  | render2x_4_2_2_pal (sh : Shifts) (a : RenderArea) (pal_mode : Int) (double_scan : Int)
      (pal_scanline_shade : Int)
  | render_4_1_1 (pl : Planes) (a : RenderArea)
  | render2x_4_1_1 (pl : Planes) (a : RenderArea) (double_scan : Int)
      (pal_scanline_shade : Int)
  | render_4_1_1_pal (pl : Planes) (a : RenderArea) (pal_mode : Int)
  | render2x_4_1_1_pal (pl : Planes) (a : RenderArea) (pal_mode : Int) (double_scan : Int)
      (pal_scanline_shade : Int)
  deriving DecidableEq, Repr

/-- Whether the renderer is one of the four double-size (`render2x_`) ones. -/
def RenderCall.is2x : RenderCall → Bool
  | .render2x_4_2_2 .. => true
  | .render2x_4_2_2_pal .. => true
  | .render2x_4_1_1 .. => true
  | .render2x_4_1_1_pal .. => true
  | _ => false

/-- Whether the renderer is one of the four planar 4:1:1 ones. -/
def RenderCall.isPlanar : RenderCall → Bool
  | .render_4_1_1 .. => true
  | .render2x_4_1_1 .. => true
  | .render_4_1_1_pal .. => true
  | .render2x_4_1_1_pal .. => true
  | _ => false

/-- Whether the renderer is one of the four PAL-emulation (`_pal`) ones. -/
def RenderCall.isPal : RenderCall → Bool
  | .render_4_2_2_pal .. => true
  | .render2x_4_2_2_pal .. => true
  | .render_4_1_1_pal .. => true
  | .render2x_4_1_1_pal .. => true
  | _ => false

/-- The plane assignment a planar renderer is called with. -/
def RenderCall.planes : RenderCall → Option Planes
  | .render_4_1_1 pl _ => some pl
  | .render2x_4_1_1 pl _ _ _ => some pl
  | .render_4_1_1_pal pl _ _ => some pl
  | .render2x_4_1_1_pal pl _ _ _ _ => some pl
  | _ => none

/-- The same call with the U and V plane numbers exchanged. -/
def RenderCall.swapUV : RenderCall → RenderCall
  | .render_4_1_1 pl a => .render_4_1_1 ⟨pl.plane_y, pl.plane_v, pl.plane_u⟩ a
  | .render2x_4_1_1 pl a ds ss => .render2x_4_1_1 ⟨pl.plane_y, pl.plane_v, pl.plane_u⟩ a ds ss
  | .render_4_1_1_pal pl a pm => .render_4_1_1_pal ⟨pl.plane_y, pl.plane_v, pl.plane_u⟩ a pm
  | .render2x_4_1_1_pal pl a pm ds ss =>
      .render2x_4_1_1_pal ⟨pl.plane_y, pl.plane_v, pl.plane_u⟩ a pm ds ss
  | c => c

/-- Outcome of the format switch: the packed shifts or the planar planes. -/
inductive Layout
  | packed (sh : Shifts)
  | planar (pl : Planes)
  deriving DecidableEq, Repr

/-- Whether the switch selected a planar format (`planar = 1`). -/
def Layout.isPlanar : Layout → Bool
  | .planar _ => true
  | .packed _ => false

/-- The `switch (format.id)` of `render_yuv_image`; `none` is the `default:
return`.  `words_bigendian` is the compile-time `WORDS_BIGENDIAN` choice. -/
def format_switch (ids : FourccIds) (words_bigendian : Bool) (format_id : Nat) :
    Option Layout :=
  if format_id = ids.FOURCC_UYVY then
    some (Layout.packed (if words_bigendian then ⟨16, 24, 8, 0⟩ else ⟨8, 0, 16, 24⟩))
  else if format_id = ids.FOURCC_YUY2 then
    some (Layout.packed (if words_bigendian then ⟨24, 16, 0, 8⟩ else ⟨0, 8, 24, 16⟩))
  else if format_id = ids.FOURCC_YVYU then
    some (Layout.packed (if words_bigendian then ⟨24, 0, 16, 8⟩ else ⟨0, 24, 8, 16⟩))
  else if format_id = ids.FOURCC_YV12 then
    some (Layout.planar ⟨0, 2, 1⟩)
  else if format_id = ids.FOURCC_I420 ∨ format_id = ids.FOURCC_IYUV then
    some (Layout.planar ⟨0, 1, 2⟩)
  else
    none

/-- `render_yuv_image`: the list of renderer calls it makes.  The value of
`VIDEO_RESOURCE_PAL_MODE_FAST` (`video-resources.h`) is a parameter; the SHARP
and BLUR labels share the `default:` branch. -/
def render_yuv_image (ids : FourccIds) (VIDEO_RESOURCE_PAL_MODE_FAST : Int)
    (words_bigendian : Bool)
    (double_size double_scan pal_mode pal_scanline_shade : Int)
    (format_id : Nat) (a : RenderArea) : List RenderCall :=
  match format_switch ids words_bigendian format_id with
  | none => []
  | some (Layout.planar pl) =>
    if double_size ≠ 0 then
      if pal_mode = VIDEO_RESOURCE_PAL_MODE_FAST then
        [RenderCall.render2x_4_1_1 pl a double_scan pal_scanline_shade]
      else
        [RenderCall.render2x_4_1_1_pal pl a pal_mode double_scan pal_scanline_shade]
    else
      if pal_mode = VIDEO_RESOURCE_PAL_MODE_FAST then
        [RenderCall.render_4_1_1 pl a]
      else
        [RenderCall.render_4_1_1_pal pl a pal_mode]
  | some (Layout.packed sh) =>
    if double_size ≠ 0 then
      if pal_mode = VIDEO_RESOURCE_PAL_MODE_FAST then
        [RenderCall.render2x_4_2_2 sh a double_scan pal_scanline_shade]
      else
        [RenderCall.render2x_4_2_2_pal sh a pal_mode double_scan pal_scanline_shade]
    else
      if pal_mode = VIDEO_RESOURCE_PAL_MODE_FAST then
        [RenderCall.render_4_2_2 sh a]
      else
        [RenderCall.render_4_2_2_pal sh a pal_mode]

/-! ## Block normalisation of `render_4_2_2` and `render_4_1_1` -/

/-- One axis after normalisation: destination and source start, extent. -/
structure Axis where
  dest : Int
  src : Int
  size : Nat
  deriving DecidableEq, Repr

/-- Decrement of an `int`; below `INT_MIN` the C result is undefined. -/
def dec_int (x : Int) : Option Int :=
  if -2 ^ 31 < x then some (x - 1) else none

/-- Increment of an `unsigned int`, modulo 2^32. -/
def inc_uint (n : Nat) : Nat := (n + 1) % 2 ^ 32

/-- The normalisation of one axis, as written for `dest_x, src_x, src_w` (and in
`render_4_1_1` again for `dest_y, src_y, src_h`):
`if (dest & 1) { dest--; src--; size++; }  if (size & 1) { size++; }`. -/
def normalize_axis (dest src : Int) (size : Nat) : Option Axis :=
  if dest % 2 ≠ 0 then
    match dec_int dest, dec_int src with
    | some d, some s =>
      let w := inc_uint size
      some { dest := d, src := s, size := if w % 2 ≠ 0 then inc_uint w else w }
    | _, _ => none
  else
    some { dest := dest, src := src, size := if size % 2 ≠ 0 then inc_uint size else size }

/-- Alignment achieved by the normalisation of one axis, for old values
`dest, src` and new values `r`: destination start and extent even, the start
moved back by at most one, and the offset between source and destination
kept. -/
def Aligned (dest src : Int) (r : Axis) : Prop :=
  r.dest % 2 = 0 ∧ r.size % 2 = 0 ∧ (r.dest = dest ∨ r.dest = dest - 1)
    ∧ r.src - r.dest = src - dest

instance (dest src : Int) (r : Axis) : Decidable (Aligned dest src r) := by
  unfold Aligned
  infer_instance

/-- The normalised axis `r` still reaches the end of the old extent. -/
def Covers (dest : Int) (size : Nat) (r : Axis) : Prop :=
  dest + (size : Int) ≤ r.dest + (r.size : Int)

instance (dest : Int) (size : Nat) (r : Axis) : Decidable (Covers dest size r) := by
  unfold Covers
  infer_instance

/-- Head of `render_4_2_2`: "Normalize to 2x1 blocks". -/
def render_4_2_2_normalize (dest_x src_x : Int) (src_w : Nat) : Option Axis :=
  normalize_axis dest_x src_x src_w

/-- Head of `render_4_1_1`: "Normalize to 2x2 blocks", first the horizontal
axis, then the vertical one. -/
def render_4_1_1_normalize (dest_x src_x : Int) (src_w : Nat) (dest_y src_y : Int)
    (src_h : Nat) : Option (Axis × Axis) :=
  match normalize_axis dest_x src_x src_w with
  | none => none
  | some h =>
    match normalize_axis dest_y src_y src_h with
    | none => none
    | some v => some (h, v)

end RenderXv

namespace FfmpegWidget

/-! ## `get_format_index_by_name` -/

/-- An entry of a driver's format list; only the `name` pointer is read here,
`none` being the null pointer of the terminating entry. -/
structure gfxoutputdrv_format_t where
  name : Option String
  deriving DecidableEq, Repr

/-- The part of `gfxoutputdrv_t` the lookup reads: the `formatlist` array, as
the sequence of entries stored in it. -/
structure gfxoutputdrv_t where
  name : String
  formatlist : List gfxoutputdrv_format_t
  deriving DecidableEq, Repr

/-- The `for` loop of `get_format_index_by_name` from index `i` on, over the
entries from that index.  A null name ends the loop and the function returns
-1; running off the end of the array is an out-of-bounds read and has no
defined result. -/
def format_index_loop (fmt : String) : List gfxoutputdrv_format_t → Nat → Option Int
  | [], _ => none
  | e :: rest, i =>
    match e.name with
    | none => some (-1)
    | some n => if n = fmt then some (i : Int) else format_index_loop fmt rest (i + 1)

/-- `get_format_index_by_name`; `driver_info` is the file-level pointer, `none`
when null. -/
def get_format_index_by_name (driver_info : Option gfxoutputdrv_t) (fmt : String) :
    Option Int :=
  match driver_info with
  | none => some (-1)
  | some d => format_index_loop fmt d.formatlist 0

/-- A format list holding the given names followed by the terminating entry
and whatever lies behind it. -/
def terminated (names : List String) (behind : List gfxoutputdrv_format_t) :
    List gfxoutputdrv_format_t :=
  names.map (fun n => { name := some n }) ++ ({ name := none } :: behind)

end FfmpegWidget

/-! # Theorems -/

namespace Vic20Via1

/-! ## Bit-level facts about bytes -/

theorem testBit_255 (i : Nat) : Nat.testBit 255 i = decide (i < 8) := by
  have h : (255 : Nat) = 2 ^ 8 - 1 := by norm_num
  rw [h, Nat.testBit_two_pow_sub_one]

theorem testBit_mod_256 (x i : Nat) :
    (x % 256).testBit i = (decide (i < 8) && x.testBit i) := by
  have h : (256 : Nat) = 2 ^ 8 := by norm_num
  rw [h, Nat.testBit_mod_two_pow]

theorem testBit_of_lt_256 {x : Nat} (hx : x < 256) {i : Nat} (hi : 8 ≤ i) :
    x.testBit i = false := by
  apply Nat.testBit_lt_two_pow
  calc x < 2 ^ 8 := by simpa using hx
    _ ≤ 2 ^ i := Nat.pow_le_pow_right (by norm_num) hi

theorem testBit_u8 (n i : Nat) :
    (u8 n).val.testBit i = (decide (i < 8) && n.testBit i) := by
  show (n % 256).testBit i = _
  exact testBit_mod_256 n i

theorem testBit_not8 (x i : Nat) :
    (not8 x).testBit i = (x.testBit i ^^ decide (i < 8)) := by
  unfold not8
  rw [Nat.testBit_xor, testBit_255]

/-- Merging latch and input under a direction mask keeps the latch on the
output bits. -/
theorem merge_and_mask (p d a : Nat) (hd : d < 256) :
    (u8 ((p &&& d) ||| (a &&& not8 d))).val &&& d = p &&& d := by
  apply Nat.eq_of_testBit_eq
  intro i
  simp only [Nat.testBit_and, Nat.testBit_or, testBit_u8, testBit_not8]
  by_cases hi : i < 8
  · simp only [hi, decide_True, Bool.true_and]
    cases p.testBit i <;> cases d.testBit i <;> simp
  · simp [testBit_of_lt_256 hd (not_lt.mp hi)]

/-! ## Port reads -/

/-- C1: the byte returned by `read_pra` carries the output latch on every bit
that DDRA marks as output, `(result & DDRA) == (PRA & DDRA)`, whatever the IEC
bus, the joystick and the tape sense line supply; hence the output bits of the
result do not depend on any adapter input. -/
theorem read_pra_output_bits_are_latch (via_context : via_context_t) (addr : Nat)
    (env : Env) (s : Statics) :
    (read_pra via_context addr env s).ret.val &&& (via_context.via ViaReg.VIA_DDRA).val
        = (via_context.via ViaReg.VIA_PRA).val &&& (via_context.via ViaReg.VIA_DDRA).val
    ∧ ∀ (env2 : Env) (s2 : Statics),
        (read_pra via_context addr env2 s2).ret.val &&& (via_context.via ViaReg.VIA_DDRA).val
          = (read_pra via_context addr env s).ret.val
              &&& (via_context.via ViaReg.VIA_DDRA).val := by
  have key : ∀ (e : Env) (t : Statics),
      (read_pra via_context addr e t).ret.val &&& (via_context.via ViaReg.VIA_DDRA).val
        = (via_context.via ViaReg.VIA_PRA).val &&& (via_context.via ViaReg.VIA_DDRA).val := by
    intro e t
    exact merge_and_mask _ _ _ (via_context.via ViaReg.VIA_DDRA).isLt
  exact ⟨key env s, fun env2 s2 => (key env2 s2).trans (key env s).symm⟩

/-- C2, as stated, fails: with PRB = DDRB = 0xff (all bits outputs holding 1)
and a user-port device that answers 0, `read_prb` returns 0, so
`result & DDRB` is 0 while `PRB & DDRB` is 0xff. -/
theorem read_prb_surfaces_device_value :
    (read_prb (via_context_t.filled 0xff) (Env.const 0) Statics.initial).ret.val
        &&& ((via_context_t.filled 0xff).via ViaReg.VIA_DDRB).val = 0
    ∧ ((via_context_t.filled 0xff).via ViaReg.VIA_PRB).val
        &&& ((via_context_t.filled 0xff).via ViaReg.VIA_DDRB).val = 0xff := by
  decide

/-- C2, amended: `read_prb` hands the user-port device the byte `PRB | ~DDRB`,
which carries the latch on every output bit, and returns the device's answer
unchanged; `(result & DDRB) == (PRB & DDRB)` holds exactly when the answer
agrees, on the bits DDRB marks as output, with the byte the device was given. -/
theorem read_prb_returns_device_answer (via_context : via_context_t) (env : Env)
    (s : Statics) :
    (read_prb via_context env s).ret
        = env.userport_pbx (u8 ((via_context.via ViaReg.VIA_PRB).val
            ||| not8 (via_context.via ViaReg.VIA_DDRB).val))
    ∧ (read_prb via_context env s).calls
        = [Call.read_userport_pbx (u8 ((via_context.via ViaReg.VIA_PRB).val
            ||| not8 (via_context.via ViaReg.VIA_DDRB).val)).val]
    ∧ (read_prb via_context env s).statics = s
    ∧ (u8 ((via_context.via ViaReg.VIA_PRB).val
            ||| not8 (via_context.via ViaReg.VIA_DDRB).val)).val
          &&& (via_context.via ViaReg.VIA_DDRB).val
        = (via_context.via ViaReg.VIA_PRB).val &&& (via_context.via ViaReg.VIA_DDRB).val
    ∧ ((read_prb via_context env s).ret.val &&& (via_context.via ViaReg.VIA_DDRB).val
          = (via_context.via ViaReg.VIA_PRB).val &&& (via_context.via ViaReg.VIA_DDRB).val
        ↔ (env.userport_pbx (u8 ((via_context.via ViaReg.VIA_PRB).val
              ||| not8 (via_context.via ViaReg.VIA_DDRB).val))).val
            &&& (via_context.via ViaReg.VIA_DDRB).val
          = (u8 ((via_context.via ViaReg.VIA_PRB).val
              ||| not8 (via_context.via ViaReg.VIA_DDRB).val)).val
            &&& (via_context.via ViaReg.VIA_DDRB).val) := by
  have hd : (via_context.via ViaReg.VIA_DDRB).val < 256 :=
    (via_context.via ViaReg.VIA_DDRB).isLt
  have horig : (u8 ((via_context.via ViaReg.VIA_PRB).val
            ||| not8 (via_context.via ViaReg.VIA_DDRB).val)).val
          &&& (via_context.via ViaReg.VIA_DDRB).val
        = (via_context.via ViaReg.VIA_PRB).val
            &&& (via_context.via ViaReg.VIA_DDRB).val := by
    apply Nat.eq_of_testBit_eq
    intro i
    simp only [Nat.testBit_and, Nat.testBit_or, testBit_u8, testBit_not8]
    by_cases hi : i < 8
    · simp only [hi, decide_True, Bool.true_and]
      cases (via_context.via ViaReg.VIA_PRB).val.testBit i <;>
        cases (via_context.via ViaReg.VIA_DDRB).val.testBit i <;> simp
    · simp [testBit_of_lt_256 hd (not_lt.mp hi)]
  refine ⟨rfl, rfl, rfl, horig, ?_⟩
  show (env.userport_pbx _).val &&& _ = _ ↔ _
  rw [horig]

/-! ## Snapshot restore -/

/-- C3, as stated, fails: after a live port A store of 0 (which clears
`userport_pa6`), restoring port B with byte 0 through `undump_prb` writes the
user port with `USERPORT_PULSE`. -/
theorem undump_prb_pulses_when_pa6_low :
    (store_pra (via_context_t.filled 0) 0 0 0 (Env.const 0) Statics.initial).statics.userport_pa6
        = 0
    ∧ (undump_prb (via_context_t.filled 0) 0
        (store_pra (via_context_t.filled 0) 0 0 0 (Env.const 0) Statics.initial).statics).calls
        = [Call.store_userport_pbx 0 UserportPulse.USERPORT_PULSE] := by
  decide

/-- C3, amended: `undump_prb` stores the byte in `userport_pb`, leaves
`userport_pa6` and `vic20_vflihack_userport` unchanged and issues exactly one
external call, `store_userport_pbx(byte, flag)`, whose flag is
`USERPORT_NO_PULSE` when `userport_pa6` is non-zero and `USERPORT_PULSE` when
`userport_pa6` is zero. -/
theorem undump_prb_flag_follows_pa6 (via_context : via_context_t) (byte : uint8_t)
    (s : Statics) :
    (undump_prb via_context byte s).statics.userport_pb = (byte.val : Int)
    ∧ (undump_prb via_context byte s).statics.userport_pa6 = s.userport_pa6
    ∧ (undump_prb via_context byte s).statics.vic20_vflihack_userport
        = s.vic20_vflihack_userport
    ∧ (s.userport_pa6 ≠ 0 →
        (undump_prb via_context byte s).calls
          = [Call.store_userport_pbx (byte.val : Int) UserportPulse.USERPORT_NO_PULSE])
    ∧ (s.userport_pa6 = 0 →
        (undump_prb via_context byte s).calls
          = [Call.store_userport_pbx (byte.val : Int) UserportPulse.USERPORT_PULSE]) := by
  refine ⟨rfl, rfl, rfl, ?_, ?_⟩
  · intro h
    simp [undump_prb, update_portbits, h]
  · intro h
    simp [undump_prb, update_portbits, h]

/-- Witness for C3 amended: in the power-on state (`userport_pa6 == 1`) restoring
port B with 0x5a writes 0x5a without a pulse; with `userport_pa6 == 0` it
writes it with one. -/
theorem undump_prb_flag_follows_pa6_witness :
    (undump_prb (via_context_t.filled 0) 0x5a Statics.initial).calls
        = [Call.store_userport_pbx 0x5a UserportPulse.USERPORT_NO_PULSE]
    ∧ (undump_prb (via_context_t.filled 0) 0x5a
          { Statics.initial with userport_pa6 := 0 }).calls
        = [Call.store_userport_pbx 0x5a UserportPulse.USERPORT_PULSE] :=
  ⟨(undump_prb_flag_follows_pa6 (via_context_t.filled 0) 0x5a Statics.initial).2.2.2.1
      (by decide),
   (undump_prb_flag_follows_pa6 (via_context_t.filled 0) 0x5a
      { Statics.initial with userport_pa6 := 0 }).2.2.2.2 (by decide)⟩

/-- C4: `undump_pra` makes exactly one external call, `iec_pa_write(byte)`, and
leaves every static (in particular `userport_pa6`, `userport_pb` and
`vic20_vflihack_userport`) unchanged, whereas the live `store_pra` on the same
byte makes the light-pen check, the IEC write, the joystick-port store, the
tape-sense output and the user-port write, in that order. -/
theorem undump_pra_only_writes_iec (via_context : via_context_t) (byte myoldpa : uint8_t)
    (addr : Nat) (env : Env) (s : Statics) :
    (undump_pra via_context byte s).calls = [Call.iec_pa_write (byte.val : Int)]
    ∧ (undump_pra via_context byte s).statics = s
    ∧ (undump_pra via_context byte s).statics.userport_pa6 = s.userport_pa6
    ∧ (undump_pra via_context byte s).statics.userport_pb = s.userport_pb
    ∧ (undump_pra via_context byte s).statics.vic20_vflihack_userport
        = s.vic20_vflihack_userport
    ∧ (store_pra via_context byte myoldpa addr env s).calls
        = [Call.read_joyport_dig JoyportId.JOYPORT_1,
           Call.vic_set_light_pen env.maincpu_clk
             (if (u8 (env.joyport_dig.val &&& byte.val)).val &&& 0x20 = 0 then 1 else 0),
           Call.iec_pa_write (byte.val : Int),
           Call.store_joyport_dig JoyportId.JOYPORT_1
             ((u8 (((byte.val &&& 0x20) >>> 1) ||| ((byte.val &&& 0x1c) >>> 2))).val : Nat)
             0x17,
           Call.tapeport_set_sense_out TapeportId.TAPEPORT_PORT_1
             (if byte.val &&& 0x40 ≠ 0 then 1 else 0),
           Call.store_userport_pbx s.userport_pb
             (if byte.val &&& 0x40 ≠ 0 then UserportPulse.USERPORT_NO_PULSE
              else UserportPulse.USERPORT_PULSE)] := by
  refine ⟨rfl, rfl, rfl, rfl, rfl, ?_⟩
  by_cases h : byte.val &&& 0x40 = 0
  · simp [store_pra, via1_internal_lightpen_check, update_portbits, h]
  · simp [store_pra, via1_internal_lightpen_check, update_portbits, h]

/-! ## Set-up, interrupts, reset -/

/-- C5: after `vic20via1_setup_context`, whatever the allocated memory held and
whatever the engine's own set-up routine did to it, each of the seventeen
callback slots holds the adapter function of the same name, so none of them is
null. -/
theorem setup_context_binds_every_slot (lib_malloc : via_context_t)
    (viacore_setup_context : via_context_t → via_context_t) :
    (vic20via1_setup_context lib_malloc viacore_setup_context).slots
        = [some AdapterFn.undump_pra, some AdapterFn.undump_prb,
           some AdapterFn.undump_pcr, some AdapterFn.undump_acr,
           some AdapterFn.store_pra, some AdapterFn.store_prb,
           some AdapterFn.store_pcr, some AdapterFn.store_acr,
           some AdapterFn.store_sr, some AdapterFn.store_t2l,
           some AdapterFn.read_pra, some AdapterFn.read_prb,
           some AdapterFn.set_int, some AdapterFn.restore_int,
           some AdapterFn.set_ca2, some AdapterFn.set_cb2,
           some AdapterFn.reset]
    ∧ (vic20via1_setup_context lib_malloc viacore_setup_context).slots.length = 17
    ∧ ∀ slot ∈ (vic20via1_setup_context lib_malloc viacore_setup_context).slots,
        slot ≠ none := by
  have h : (vic20via1_setup_context lib_malloc viacore_setup_context).slots
        = [some AdapterFn.undump_pra, some AdapterFn.undump_prb,
           some AdapterFn.undump_pcr, some AdapterFn.undump_acr,
           some AdapterFn.store_pra, some AdapterFn.store_prb,
           some AdapterFn.store_pcr, some AdapterFn.store_acr,
           some AdapterFn.store_sr, some AdapterFn.store_t2l,
           some AdapterFn.read_pra, some AdapterFn.read_prb,
           some AdapterFn.set_int, some AdapterFn.restore_int,
           some AdapterFn.set_ca2, some AdapterFn.set_cb2,
           some AdapterFn.reset] := rfl
  refine ⟨h, rfl, ?_⟩
  intro slot hslot
  rw [h] at hslot
  simp only [List.mem_cons, List.mem_singleton, List.not_mem_nil, or_false] at hslot
  rcases hslot with h | h | h | h | h | h | h | h | h | h | h | h | h | h | h | h | h <;>
    simp [h]

/-- C6: the context is configured for the non-maskable line, and the interrupt
callbacks agree: `set_int` makes exactly one external call,
`interrupt_set_nmi(maincpu_int_status, int_num, value, rclk)`, and
`restore_int` exactly one, `interrupt_restore_nmi(maincpu_int_status, int_num,
value)`, both with their arguments passed through and neither touching the
maskable line or the statics. -/
theorem interrupts_use_nmi_line (lib_malloc via_context : via_context_t)
    (viacore_setup_context : via_context_t → via_context_t)
    (int_num : Nat) (value : Int) (rclk : Nat) (s : Statics) :
    (vic20via1_setup_context lib_malloc viacore_setup_context).irq_line = IrqLine.IK_NMI
    ∧ (set_int via_context int_num value rclk s).calls
        = [Call.interrupt_set_nmi IntStatus.maincpu_int_status int_num value rclk]
    ∧ (set_int via_context int_num value rclk s).statics = s
    ∧ (restore_int via_context int_num value s).calls
        = [Call.interrupt_restore_nmi IntStatus.maincpu_int_status int_num value]
    ∧ (restore_int via_context int_num value s).statics = s
    ∧ (∀ c ∈ (set_int via_context int_num value rclk s).calls
            ++ (restore_int via_context int_num value s).calls,
        ∀ (cs : IntStatus) (n : Nat) (v : Int) (k : Nat),
          c ≠ Call.interrupt_set_irq cs n v k ∧ c ≠ Call.interrupt_restore_irq cs n v) := by
  refine ⟨rfl, rfl, rfl, rfl, rfl, ?_⟩
  intro c hc cs n v k
  simp only [set_int, restore_int, List.cons_append, List.nil_append, List.mem_cons,
    List.mem_singleton, List.not_mem_nil, or_false] at hc
  rcases hc with h | h <;> subst h <;> exact ⟨by simp, by simp⟩

/-- C7: from every prior state `reset` leaves `userport_pb == 0xff` and
`userport_pa6 == 1`, the values of the static initialisers, emits exactly
`store_userport_pbx(0xff, USERPORT_NO_PULSE)` followed by
`store_userport_pa2(1)`, and is idempotent in both state and emitted calls. -/
theorem reset_restores_power_on (via_context : via_context_t) (s : Statics) :
    (reset via_context s).statics.userport_pb = 0xff
    ∧ (reset via_context s).statics.userport_pa6 = 1
    ∧ (reset via_context s).statics.userport_pb = Statics.initial.userport_pb
    ∧ (reset via_context s).statics.userport_pa6 = Statics.initial.userport_pa6
    ∧ (reset via_context s).calls
        = [Call.store_userport_pbx 0xff UserportPulse.USERPORT_NO_PULSE,
           Call.store_userport_pa2 1]
    ∧ (reset via_context (reset via_context s).statics).statics
        = (reset via_context s).statics
    ∧ (reset via_context (reset via_context s).statics).calls
        = (reset via_context s).calls :=
  ⟨rfl, rfl, rfl, rfl, rfl, rfl, rfl⟩

/-! ## Port A input wiring -/

theorem testBit_7 (i : Nat) : Nat.testBit 7 i = decide (i < 3) := by
  have h : (7 : Nat) = 2 ^ 3 - 1 := by norm_num
  rw [h, Nat.testBit_two_pow_sub_one]

theorem testBit_8 (i : Nat) : Nat.testBit 8 i = decide (3 = i) := by
  have h : (8 : Nat) = 2 ^ 3 := by norm_num
  rw [h, Nat.testBit_two_pow]

theorem testBit_16 (i : Nat) : Nat.testBit 16 i = decide (4 = i) := by
  have h : (16 : Nat) = 2 ^ 4 := by norm_num
  rw [h, Nat.testBit_two_pow]

theorem testBit_64 (i : Nat) : Nat.testBit 64 i = decide (6 = i) := by
  have h : (64 : Nat) = 2 ^ 6 := by norm_num
  rw [h, Nat.testBit_two_pow]

/-- A byte with no bit set under a mask has each masked bit clear. -/
theorem testBit_of_and_eq_zero {x m : Nat} (h : x &&& m = 0) {i : Nat}
    (hm : m.testBit i = true) : x.testBit i = false := by
  have h2 : (x &&& m).testBit i = false := by rw [h]; exact Nat.zero_testBit i
  rw [Nat.testBit_and, hm, Bool.and_true] at h2
  exact h2

/-- The result bit of `read_pra` at a position below 8, spelled out. -/
theorem read_pra_testBit (via_context : via_context_t) (addr : Nat) (env : Env)
    (s : Statics) (i : Nat) (hi : i < 8) :
    (read_pra via_context addr env s).ret.val.testBit i
      = (((via_context.via ViaReg.VIA_PRA).val.testBit i
            && (via_context.via ViaReg.VIA_DDRA).val.testBit i)
         || ((env.iec_pa.val.testBit i
              || ((decide (2 ≤ i) && (env.joyport_dig.val.testBit (i - 2) && decide (i - 2 < 3)))
                  || (decide (1 ≤ i) && (env.joyport_dig.val.testBit (i - 1) && decide (4 = i - 1)))
                  || (if s.tape_sense ≠ 0 then (0 : Nat) else 0x40).testBit i))
             && !(via_context.via ViaReg.VIA_DDRA).val.testBit i)) := by
  simp only [read_pra, testBit_u8, testBit_not8, Nat.testBit_and, Nat.testBit_or,
    Nat.testBit_shiftLeft, hi, decide_True, Bool.true_and, Bool.xor_true, ge_iff_le,
    testBit_7, testBit_16]

/-- The joystick bits that `read_pra` looks at survive a flip of bit 3. -/
theorem joy_masks_ignore_bit3 (j : Nat) :
    (u8 (j ^^^ 0x08)).val &&& 0x7 = (u8 j).val &&& 0x7
    ∧ (u8 (j ^^^ 0x08)).val &&& 0x10 = (u8 j).val &&& 0x10 := by
  constructor
  · apply Nat.eq_of_testBit_eq
    intro i
    simp only [Nat.testBit_and, testBit_u8, Nat.testBit_xor, testBit_7, testBit_8]
    by_cases hi : i < 3
    · have h3 : ¬ (3 = i) := by omega
      simp [h3]
    · simp [hi]
  · apply Nat.eq_of_testBit_eq
    intro i
    simp only [Nat.testBit_and, testBit_u8, Nat.testBit_xor, testBit_16, testBit_8]
    by_cases hi : 4 = i
    · have h3 : ¬ (3 = i) := by omega
      simp [h3]
    · simp [hi]

/-- C8: with `iec_pa_read()` zero on the non-IEC bits 2..6, every bit of the
`read_pra` result that DDRA marks as input follows the documented wiring:
bits 2, 3, 4 are joystick bits 0, 1, 2, bit 5 is joystick bit 4 (fire), bit 6
is set exactly when `tape_sense` is 0, bits 0, 1 and 7 are the IEC bits; and
flipping joystick bit 3 never changes what `read_pra` yields. -/
theorem read_pra_input_wiring (via_context : via_context_t) (addr : Nat) (env : Env)
    (s : Statics) (hiec : env.iec_pa.val &&& 0x7c = 0) :
    ((via_context.via ViaReg.VIA_DDRA).val.testBit 2 = false →
        (read_pra via_context addr env s).ret.val.testBit 2 = env.joyport_dig.val.testBit 0)
    ∧ ((via_context.via ViaReg.VIA_DDRA).val.testBit 3 = false →
        (read_pra via_context addr env s).ret.val.testBit 3 = env.joyport_dig.val.testBit 1)
    ∧ ((via_context.via ViaReg.VIA_DDRA).val.testBit 4 = false →
        (read_pra via_context addr env s).ret.val.testBit 4 = env.joyport_dig.val.testBit 2)
    ∧ ((via_context.via ViaReg.VIA_DDRA).val.testBit 5 = false →
        (read_pra via_context addr env s).ret.val.testBit 5 = env.joyport_dig.val.testBit 4)
    ∧ ((via_context.via ViaReg.VIA_DDRA).val.testBit 6 = false →
        ((read_pra via_context addr env s).ret.val.testBit 6 = true ↔ s.tape_sense = 0))
    ∧ ((via_context.via ViaReg.VIA_DDRA).val.testBit 0 = false →
        (read_pra via_context addr env s).ret.val.testBit 0 = env.iec_pa.val.testBit 0)
    ∧ ((via_context.via ViaReg.VIA_DDRA).val.testBit 1 = false →
        (read_pra via_context addr env s).ret.val.testBit 1 = env.iec_pa.val.testBit 1)
    ∧ ((via_context.via ViaReg.VIA_DDRA).val.testBit 7 = false →
        (read_pra via_context addr env s).ret.val.testBit 7 = env.iec_pa.val.testBit 7)
    ∧ (read_pra via_context addr
          { env with joyport_dig := u8 (env.joyport_dig.val ^^^ 0x08) } s).ret
        = (read_pra via_context addr env s).ret := by
  have i2 := testBit_of_and_eq_zero hiec (i := 2) (by decide)
  have i3 := testBit_of_and_eq_zero hiec (i := 3) (by decide)
  have i4 := testBit_of_and_eq_zero hiec (i := 4) (by decide)
  have i5 := testBit_of_and_eq_zero hiec (i := 5) (by decide)
  have i6 := testBit_of_and_eq_zero hiec (i := 6) (by decide)
  refine ⟨?_, ?_, ?_, ?_, ?_, ?_, ?_, ?_, ?_⟩
  · intro h
    rw [read_pra_testBit _ _ _ _ 2 (by decide)]
    by_cases ht : s.tape_sense = 0 <;> simp [h, i2, ht, testBit_64]
  · intro h
    rw [read_pra_testBit _ _ _ _ 3 (by decide)]
    by_cases ht : s.tape_sense = 0 <;> simp [h, i3, ht, testBit_64]
  · intro h
    rw [read_pra_testBit _ _ _ _ 4 (by decide)]
    by_cases ht : s.tape_sense = 0 <;> simp [h, i4, ht, testBit_64]
  · intro h
    rw [read_pra_testBit _ _ _ _ 5 (by decide)]
    by_cases ht : s.tape_sense = 0 <;> simp [h, i5, ht, testBit_64]
  · intro h
    rw [read_pra_testBit _ _ _ _ 6 (by decide)]
    by_cases ht : s.tape_sense = 0 <;> simp [h, i6, ht, testBit_64]
  · intro h
    rw [read_pra_testBit _ _ _ _ 0 (by decide)]
    by_cases ht : s.tape_sense = 0 <;> simp [h, ht, testBit_64]
  · intro h
    rw [read_pra_testBit _ _ _ _ 1 (by decide)]
    by_cases ht : s.tape_sense = 0 <;> simp [h, ht, testBit_64]
  · intro h
    rw [read_pra_testBit _ _ _ _ 7 (by decide)]
    by_cases ht : s.tape_sense = 0 <;> simp [h, ht, testBit_64]
  · have hu : (u8 env.joyport_dig.val).val = env.joyport_dig.val :=
      Nat.mod_eq_of_lt env.joyport_dig.isLt
    have h := joy_masks_ignore_bit3 env.joyport_dig.val
    rw [hu] at h
    simp only [read_pra, h.1, h.2]

/-- Witness for C8: all of port A input (DDRA = 0), IEC and joystick both
reading 0x81, tape sense 0: result bit 2 is joystick bit 0 and bit 6 is set. -/
theorem read_pra_input_wiring_witness :
    (Env.const 0x81).iec_pa.val &&& 0x7c = 0
    ∧ (read_pra (via_context_t.filled 0) 0 (Env.const 0x81) Statics.initial).ret.val.testBit 2
        = (Env.const 0x81).joyport_dig.val.testBit 0
    ∧ (read_pra (via_context_t.filled 0) 0 (Env.const 0x81) Statics.initial).ret.val.testBit 6
        = true :=
  ⟨by decide,
   (read_pra_input_wiring (via_context_t.filled 0) 0 (Env.const 0x81) Statics.initial
      (by decide)).1 (by decide),
   ((read_pra_input_wiring (via_context_t.filled 0) 0 (Env.const 0x81) Statics.initial
      (by decide)).2.2.2.2.1 (by decide)).mpr (by decide)⟩

/-! ## Live stores and handshake lines -/

/-- Masking with 0x40 tests bit 6. -/
theorem and_64_eq_zero_iff (x : Nat) : x &&& 0x40 = 0 ↔ x.testBit 6 = false := by
  have h : (0x40 : Nat) = 2 ^ 6 := by norm_num
  rw [h, Nat.land_comm, Nat.two_pow_and]
  cases x.testBit 6 <;> simp

/-- C13, the code at a failing input: writing 0x00 over a PCR of 0xff, the
adjusted value `tmp` is 0x22 (bit 1 and bit 5 forced to 1), whose bit 1 negated
is 0 and whose bit 5 is 1, yet `store_pcr` calls `tapeport_set_motor` with 1
and `store_userport_pa2` with 0: the arguments are taken from the written
byte, not from the adjusted value. -/
theorem store_pcr_uses_unadjusted_byte :
    (0 : uint8_t) ≠ (via_context_t.filled 0xff).via ViaReg.VIA_PCR
    ∧ store_pcr_tmp 0 = 0x22
    ∧ (store_pcr_tmp 0).val.testBit 1 = true
    ∧ (store_pcr_tmp 0).val.testBit 5 = true
    ∧ (store_pcr (via_context_t.filled 0xff) 0 0 Statics.initial).calls
        = [Call.tapeport_set_motor TapeportId.TAPEPORT_PORT_1 1,
           Call.store_userport_pa2 0] := by
  decide

/-- C14: for every byte, `store_pra` sets `userport_pa6` to bit 6 of the byte,
leaves `userport_pb` and `vic20_vflihack_userport` as they were, and ends its
external calls with `tapeport_set_sense_out(TAPEPORT_PORT_1, bit 6)` followed
by the user-port write of the unchanged `userport_pb`, flagged
`USERPORT_PULSE` exactly when bit 6 is 0 and `USERPORT_NO_PULSE` exactly when
it is 1. -/
theorem store_pra_drives_pa6 (via_context : via_context_t) (byte myoldpa : uint8_t)
    (addr : Nat) (env : Env) (s : Statics) :
    (store_pra via_context byte myoldpa addr env s).statics.userport_pa6
        = (if byte.val.testBit 6 then 1 else 0)
    ∧ (store_pra via_context byte myoldpa addr env s).statics.userport_pb = s.userport_pb
    ∧ (store_pra via_context byte myoldpa addr env s).statics.vic20_vflihack_userport
        = s.vic20_vflihack_userport
    ∧ (store_pra via_context byte myoldpa addr env s).calls
        = via1_internal_lightpen_check byte env ++
          [Call.iec_pa_write (byte.val : Int),
           Call.store_joyport_dig JoyportId.JOYPORT_1
             ((u8 (((byte.val &&& 0x20) >>> 1) ||| ((byte.val &&& 0x1c) >>> 2))).val : Nat)
             0x17,
           Call.tapeport_set_sense_out TapeportId.TAPEPORT_PORT_1
             (if byte.val.testBit 6 then 1 else 0),
           Call.store_userport_pbx s.userport_pb
             (if byte.val.testBit 6 then UserportPulse.USERPORT_NO_PULSE
              else UserportPulse.USERPORT_PULSE)]
    ∧ (∀ c ∈ via1_internal_lightpen_check byte env,
        c = Call.read_joyport_dig JoyportId.JOYPORT_1
        ∨ ∃ v, c = Call.vic_set_light_pen env.maincpu_clk v) := by
  have hb := and_64_eq_zero_iff byte.val
  refine ⟨?_, rfl, rfl, ?_, ?_⟩
  · cases h6 : byte.val.testBit 6
    · have h0 : byte.val &&& 0x40 = 0 := hb.mpr h6
      simp [store_pra, h0]
    · have h0 : ¬ (byte.val &&& 0x40 = 0) := fun h => by
        rw [hb.mp h] at h6; exact Bool.noConfusion h6
      simp [store_pra, h0]
  · cases h6 : byte.val.testBit 6
    · have h0 : byte.val &&& 0x40 = 0 := hb.mpr h6
      simp [store_pra, update_portbits, h0]
    · have h0 : ¬ (byte.val &&& 0x40 = 0) := fun h => by
        rw [hb.mp h] at h6; exact Bool.noConfusion h6
      simp [store_pra, update_portbits, h0]
  · intro c hc
    simp only [via1_internal_lightpen_check, List.mem_cons, List.mem_singleton,
      List.not_mem_nil, or_false] at hc
    rcases hc with h | h
    · exact Or.inl h
    · exact Or.inr ⟨_, h⟩

/-- C15: for every byte, `store_prb` sets `vic20_vflihack_userport` to the low
nibble `byte & 0x0f` (a value in 0..15), sets `userport_pb` to the byte, leaves
`userport_pa6` unchanged and makes exactly one external call, the user-port
write of that byte, flagged `USERPORT_PULSE` iff `userport_pa6 == 0`. -/
theorem store_prb_updates_userport (via_context : via_context_t) (byte myoldpb : uint8_t)
    (addr : Nat) (s : Statics) :
    (store_prb via_context byte myoldpb addr s).statics.vic20_vflihack_userport
        = ((byte.val &&& 0x0f : Nat) : Int)
    ∧ byte.val &&& 0x0f = byte.val % 16
    ∧ 0 ≤ (store_prb via_context byte myoldpb addr s).statics.vic20_vflihack_userport
    ∧ (store_prb via_context byte myoldpb addr s).statics.vic20_vflihack_userport ≤ 15
    ∧ (store_prb via_context byte myoldpb addr s).statics.userport_pb = (byte.val : Int)
    ∧ (store_prb via_context byte myoldpb addr s).statics.userport_pa6 = s.userport_pa6
    ∧ (∃ flag, (store_prb via_context byte myoldpb addr s).calls
          = [Call.store_userport_pbx (byte.val : Int) flag]
        ∧ (flag = UserportPulse.USERPORT_PULSE ↔ s.userport_pa6 = 0)) := by
  have hnib : byte.val &&& 0x0f = byte.val % 16 := by
    have h : (0x0f : Nat) = 2 ^ 4 - 1 := by norm_num
    rw [h, Nat.and_pow_two_sub_one_eq_mod]
  have hlt : byte.val % 16 < 16 := Nat.mod_lt _ (by norm_num)
  refine ⟨rfl, hnib, ?_, ?_, rfl, rfl, ?_⟩
  · show (0 : Int) ≤ ((byte.val &&& 0x0f : Nat) : Int)
    exact Int.ofNat_nonneg _
  · show ((byte.val &&& 0x0f : Nat) : Int) ≤ 15
    rw [hnib]
    omega
  · by_cases h : s.userport_pa6 = 0
    · exact ⟨UserportPulse.USERPORT_PULSE, by simp [store_prb, update_portbits, h], by simp [h]⟩
    · exact ⟨UserportPulse.USERPORT_NO_PULSE, by simp [store_prb, update_portbits, h],
        by simp [h]⟩

/-- C16: `set_cb2` makes exactly the call `store_userport_pa2(state)` when
`cb2_is_input` is zero and no external call when it is non-zero; `set_ca2`
makes no external call; neither changes the statics. -/
theorem set_cb2_forwards_only_as_output (via_context : via_context_t) (state offset : Int)
    (s : Statics) :
    (via_context.cb2_is_input = 0 →
        (set_cb2 via_context state offset s).calls = [Call.store_userport_pa2 state])
    ∧ (via_context.cb2_is_input ≠ 0 → (set_cb2 via_context state offset s).calls = [])
    ∧ (set_cb2 via_context state offset s).statics = s
    ∧ (set_ca2 via_context state s).calls = []
    ∧ (set_ca2 via_context state s).statics = s := by
  refine ⟨?_, ?_, ?_, rfl, rfl⟩
  · intro h
    simp [set_cb2, h]
  · intro h
    simp [set_cb2, h]
  · by_cases h : via_context.cb2_is_input = 0 <;> simp [set_cb2, h]

/-- Witness for C16: with CB2 an output a level of 1 reaches the user port; with
CB2 an input nothing is called. -/
theorem set_cb2_forwards_only_as_output_witness :
    (set_cb2 (via_context_t.filled 0) 1 0 Statics.initial).calls
        = [Call.store_userport_pa2 1]
    ∧ (set_cb2 { via_context_t.filled 0 with cb2_is_input := 1 } 1 0 Statics.initial).calls
        = [] :=
  ⟨(set_cb2_forwards_only_as_output (via_context_t.filled 0) 1 0 Statics.initial).1
      (by decide),
   (set_cb2_forwards_only_as_output { via_context_t.filled 0 with cb2_is_input := 1 } 1 0
      Statics.initial).2.1 (by decide)⟩

end Vic20Via1

namespace RenderXv

theorem toUInt32_toInt32 (u : Nat) (hu : u < 2 ^ 32) : toUInt32 (toInt32 u) = u := by
  unfold toUInt32 toInt32
  have e : u % 2 ^ 32 = u := Nat.mod_eq_of_lt hu
  rw [e]
  norm_num at hu ⊢
  split <;> omega

theorem toInt32_of_lt (u : Nat) (hu : u < 2 ^ 31) : toInt32 u = (u : Int) := by
  unfold toInt32
  have hu2 : u < 2 ^ 32 := lt_trans hu (by norm_num)
  have e : u % 2 ^ 32 = u := Nat.mod_eq_of_lt hu2
  rw [e, if_pos hu]

/-- The centring computation `(int)(((unsigned)(int)a - b) / 2)` without wrap. -/
theorem centre_offset (a b : Nat) (ha : a < 2 ^ 32) (hb : b ≤ a) :
    toInt32 ((toUInt32 (toInt32 a) + 2 ^ 32 - b) % 2 ^ 32 / 2) = (((a - b) / 2 : Nat) : Int) := by
  rw [toUInt32_toInt32 a ha]
  have e : (a + 2 ^ 32 - b) % 2 ^ 32 = a - b := by
    norm_num at ha ⊢
    omega
  rw [e]
  apply toInt32_of_lt
  norm_num at ha ⊢
  omega

/-- Result of `display_yuv_image` when the width is the limiting side. -/
theorem display_yuv_image_of_lt (shminfo : Bool) (src_x src_y : Int)
    (src_w src_h dest_w dest_h : Nat) (hw : 0 < src_w)
    (h1 : dest_w * src_h < 2 ^ 32) (h2 : src_w * dest_h < 2 ^ 32)
    (hlt : dest_w * src_h < src_w * dest_h) :
    display_yuv_image shminfo src_x src_y src_w src_h dest_w dest_h
      = some { shm := shminfo, src_x := src_x, src_y := src_y, src_w := src_w, src_h := src_h
               dest_x := 0
               dest_y := (((dest_h - dest_w * src_h / src_w) / 2 : Nat) : Int)
               dest_w := dest_w
               dest_h := dest_w * src_h / src_w } := by
  have hdh : dest_h < 2 ^ 32 :=
    lt_of_le_of_lt (Nat.le_mul_of_pos_left dest_h hw) h2
  have hle : dest_w * src_h / src_w ≤ dest_h :=
    le_of_lt ((Nat.div_lt_iff_lt_mul hw).mpr (by rw [Nat.mul_comm dest_h src_w]; exact hlt))
  unfold display_yuv_image
  rw [Nat.mod_eq_of_lt h1, Nat.mod_eq_of_lt h2, if_pos hlt, if_neg (Nat.pos_iff_ne_zero.mp hw)]
  simp only [centre_offset dest_h _ hdh hle]

/-- Result of `display_yuv_image` when the height is the limiting side. -/
theorem display_yuv_image_of_not_lt (shminfo : Bool) (src_x src_y : Int)
    (src_w src_h dest_w dest_h : Nat) (hh : 0 < src_h)
    (h1 : dest_w * src_h < 2 ^ 32) (h2 : src_w * dest_h < 2 ^ 32)
    (hge : ¬ dest_w * src_h < src_w * dest_h) :
    display_yuv_image shminfo src_x src_y src_w src_h dest_w dest_h
      = some { shm := shminfo, src_x := src_x, src_y := src_y, src_w := src_w, src_h := src_h
               dest_x := (((dest_w - dest_h * src_w / src_h) / 2 : Nat) : Int)
               dest_y := 0
               dest_w := dest_h * src_w / src_h
               dest_h := dest_h } := by
  have hdw : dest_w < 2 ^ 32 :=
    lt_of_le_of_lt (Nat.le_mul_of_pos_right dest_w hh) h1
  have h2b : dest_h * src_w < 2 ^ 32 := by rw [Nat.mul_comm]; exact h2
  have hle : dest_h * src_w / src_h ≤ dest_w := by
    apply Nat.div_le_of_le_mul
    rw [Nat.mul_comm dest_h src_w, Nat.mul_comm src_h dest_w]
    exact not_lt.mp hge
  unfold display_yuv_image
  rw [Nat.mod_eq_of_lt h1, Nat.mod_eq_of_lt h2, if_neg hge, if_neg (Nat.pos_iff_ne_zero.mp hh),
    Nat.mod_eq_of_lt h2b]
  simp only [centre_offset dest_w _ hdw hle]

/-- C9: `display_yuv_image` keeps the aspect ratio of the source.  For a
non-empty source and products below 2^32 a put-image request is issued; if
`dest_w*src_h < src_w*dest_h` it has width `dest_w` and height
`dest_w*src_h/src_w`, with `0 <= w*src_h - h*src_w < src_w`; otherwise it has
height `dest_h` and width `dest_h*src_w/src_h`, with
`0 <= h*src_w - w*src_h < src_h`. -/
theorem display_yuv_image_keeps_aspect (shminfo : Bool) (src_x src_y : Int)
    (src_w src_h dest_w dest_h : Nat) (hw : 0 < src_w) (hh : 0 < src_h)
    (h1 : dest_w * src_h < 2 ^ 32) (h2 : src_w * dest_h < 2 ^ 32) :
    ∃ p : PutImage,
      display_yuv_image shminfo src_x src_y src_w src_h dest_w dest_h = some p
      ∧ (dest_w * src_h < src_w * dest_h →
          p.dest_w = dest_w ∧ p.dest_h = dest_w * src_h / src_w
          ∧ p.dest_h * src_w ≤ p.dest_w * src_h
          ∧ p.dest_w * src_h - p.dest_h * src_w < src_w)
      ∧ (¬ dest_w * src_h < src_w * dest_h →
          p.dest_h = dest_h ∧ p.dest_w = dest_h * src_w / src_h
          ∧ p.dest_w * src_h ≤ p.dest_h * src_w
          ∧ p.dest_h * src_w - p.dest_w * src_h < src_h) := by
  by_cases hlt : dest_w * src_h < src_w * dest_h
  · refine ⟨_, display_yuv_image_of_lt shminfo src_x src_y src_w src_h dest_w dest_h hw h1 h2 hlt,
      ?_, fun hn => absurd hlt hn⟩
    intro _
    have hd := Nat.div_add_mod (dest_w * src_h) src_w
    have hm := Nat.mod_lt (dest_w * src_h) hw
    have hc : dest_w * src_h / src_w * src_w = src_w * (dest_w * src_h / src_w) :=
      Nat.mul_comm _ _
    refine ⟨rfl, rfl, ?_, ?_⟩
    · show dest_w * src_h / src_w * src_w ≤ dest_w * src_h
      omega
    · show dest_w * src_h - dest_w * src_h / src_w * src_w < src_w
      omega
  · refine ⟨_, display_yuv_image_of_not_lt shminfo src_x src_y src_w src_h dest_w dest_h hh h1 h2
      hlt, fun hp => absurd hp hlt, ?_⟩
    intro _
    have hd := Nat.div_add_mod (dest_h * src_w) src_h
    have hm := Nat.mod_lt (dest_h * src_w) hh
    have hc : dest_h * src_w / src_h * src_h = src_h * (dest_h * src_w / src_h) :=
      Nat.mul_comm _ _
    refine ⟨rfl, rfl, ?_, ?_⟩
    · show dest_h * src_w / src_h * src_h ≤ dest_h * src_w
      omega
    · show dest_h * src_w - dest_h * src_w / src_h * src_h < src_h
      omega

/-- Witness for C9: a 384x272 source shown in an 800x600 area is scaled to
800x566. -/
theorem display_yuv_image_keeps_aspect_witness :
    (0 < 384 ∧ 0 < 272 ∧ 800 * 272 < 2 ^ 32 ∧ 384 * 600 < 2 ^ 32)
    ∧ ∃ p : PutImage,
        display_yuv_image false 0 0 384 272 800 600 = some p
        ∧ p.dest_w = 800 ∧ p.dest_h = 566 := by
  refine ⟨by norm_num, ?_⟩
  obtain ⟨p, hp, hfit, _⟩ :=
    display_yuv_image_keeps_aspect false 0 0 384 272 800 600 (by norm_num) (by norm_num)
      (by norm_num) (by norm_num)
  have h := hfit (by norm_num)
  exact ⟨p, hp, h.1, by rw [h.2.1]⟩

/-- C10: for a non-empty source and products below 2^32 the destination
rectangle of the put-image request lies inside the requested `dest_w` x
`dest_h` area and is centred in it: both offsets are non-negative, offset plus
size stays within the area on each axis, at most one offset is non-zero, and
each offset is half the slack on its axis, rounded down. -/
theorem display_yuv_image_centres (shminfo : Bool) (src_x src_y : Int)
    (src_w src_h dest_w dest_h : Nat) (hw : 0 < src_w) (hh : 0 < src_h)
    (h1 : dest_w * src_h < 2 ^ 32) (h2 : src_w * dest_h < 2 ^ 32) :
    ∃ p : PutImage,
      display_yuv_image shminfo src_x src_y src_w src_h dest_w dest_h = some p
      ∧ 0 ≤ p.dest_x ∧ 0 ≤ p.dest_y
      ∧ p.dest_x + (p.dest_w : Int) ≤ (dest_w : Int)
      ∧ p.dest_y + (p.dest_h : Int) ≤ (dest_h : Int)
      ∧ (p.dest_x = 0 ∨ p.dest_y = 0)
      ∧ p.dest_x = ((dest_w : Int) - (p.dest_w : Int)) / 2
      ∧ p.dest_y = ((dest_h : Int) - (p.dest_h : Int)) / 2 := by
  by_cases hlt : dest_w * src_h < src_w * dest_h
  · refine ⟨_, display_yuv_image_of_lt shminfo src_x src_y src_w src_h dest_w dest_h hw h1 h2 hlt,
      ?_⟩
    have hle : dest_w * src_h / src_w ≤ dest_h :=
      le_of_lt ((Nat.div_lt_iff_lt_mul hw).mpr (by rw [Nat.mul_comm dest_h src_w]; exact hlt))
    show (0 : Int) ≤ 0
      ∧ (0 : Int) ≤ (((dest_h - dest_w * src_h / src_w) / 2 : Nat) : Int)
      ∧ (0 : Int) + (dest_w : Int) ≤ (dest_w : Int)
      ∧ (((dest_h - dest_w * src_h / src_w) / 2 : Nat) : Int)
          + ((dest_w * src_h / src_w : Nat) : Int) ≤ (dest_h : Int)
      ∧ ((0 : Int) = 0 ∨ (((dest_h - dest_w * src_h / src_w) / 2 : Nat) : Int) = 0)
      ∧ (0 : Int) = ((dest_w : Int) - (dest_w : Int)) / 2
      ∧ (((dest_h - dest_w * src_h / src_w) / 2 : Nat) : Int)
          = ((dest_h : Int) - ((dest_w * src_h / src_w : Nat) : Int)) / 2
    generalize dest_w * src_h / src_w = q at hle
    refine ⟨le_refl _, ?_, ?_, ?_, Or.inl rfl, ?_, ?_⟩ <;> omega
  · refine ⟨_, display_yuv_image_of_not_lt shminfo src_x src_y src_w src_h dest_w dest_h hh h1 h2
      hlt, ?_⟩
    have hle : dest_h * src_w / src_h ≤ dest_w := by
      apply Nat.div_le_of_le_mul
      rw [Nat.mul_comm dest_h src_w, Nat.mul_comm src_h dest_w]
      exact not_lt.mp hlt
    show (0 : Int) ≤ (((dest_w - dest_h * src_w / src_h) / 2 : Nat) : Int)
      ∧ (0 : Int) ≤ 0
      ∧ (((dest_w - dest_h * src_w / src_h) / 2 : Nat) : Int)
          + ((dest_h * src_w / src_h : Nat) : Int) ≤ (dest_w : Int)
      ∧ (0 : Int) + (dest_h : Int) ≤ (dest_h : Int)
      ∧ ((((dest_w - dest_h * src_w / src_h) / 2 : Nat) : Int) = 0 ∨ (0 : Int) = 0)
      ∧ (((dest_w - dest_h * src_w / src_h) / 2 : Nat) : Int)
          = ((dest_w : Int) - ((dest_h * src_w / src_h : Nat) : Int)) / 2
      ∧ (0 : Int) = ((dest_h : Int) - (dest_h : Int)) / 2
    generalize dest_h * src_w / src_h = q at hle
    refine ⟨?_, le_refl _, ?_, ?_, Or.inr rfl, ?_, ?_⟩ <;> omega

/-- Witness for C10: a 384x272 source shown in an 800x600 area is placed at
offset (0, 17). -/
theorem display_yuv_image_centres_witness :
    (0 < 384 ∧ 0 < 272 ∧ 800 * 272 < 2 ^ 32 ∧ 384 * 600 < 2 ^ 32)
    ∧ ∃ p : PutImage,
        display_yuv_image true 0 0 384 272 800 600 = some p
        ∧ 0 ≤ p.dest_x ∧ 0 ≤ p.dest_y
        ∧ p.dest_x + (p.dest_w : Int) ≤ 800 ∧ p.dest_y + (p.dest_h : Int) ≤ 600 := by
  refine ⟨by norm_num, ?_⟩
  obtain ⟨p, hp, hx, hy, hxw, hyh, _⟩ :=
    display_yuv_image_centres true 0 0 384 272 800 600 (by norm_num) (by norm_num)
      (by norm_num) (by norm_num)
  exact ⟨p, hp, hx, hy, by simpa using hxw, by simpa using hyh⟩

/-! ## Renderer dispatch -/

/-- Pairwise difference of the six switch labels, unpacked. -/
theorem labels_ne (ids : FourccIds) (hd : ids.labels.Nodup) :
    ids.FOURCC_UYVY ≠ ids.FOURCC_YUY2 ∧ ids.FOURCC_UYVY ≠ ids.FOURCC_YVYU
    ∧ ids.FOURCC_UYVY ≠ ids.FOURCC_YV12 ∧ ids.FOURCC_UYVY ≠ ids.FOURCC_I420
    ∧ ids.FOURCC_UYVY ≠ ids.FOURCC_IYUV ∧ ids.FOURCC_YUY2 ≠ ids.FOURCC_YVYU
    ∧ ids.FOURCC_YUY2 ≠ ids.FOURCC_YV12 ∧ ids.FOURCC_YUY2 ≠ ids.FOURCC_I420
    ∧ ids.FOURCC_YUY2 ≠ ids.FOURCC_IYUV ∧ ids.FOURCC_YVYU ≠ ids.FOURCC_YV12
    ∧ ids.FOURCC_YVYU ≠ ids.FOURCC_I420 ∧ ids.FOURCC_YVYU ≠ ids.FOURCC_IYUV
    ∧ ids.FOURCC_YV12 ≠ ids.FOURCC_I420 ∧ ids.FOURCC_YV12 ≠ ids.FOURCC_IYUV
    ∧ ids.FOURCC_I420 ≠ ids.FOURCC_IYUV := by
  simp only [FourccIds.labels, List.nodup_cons, List.mem_cons, List.mem_singleton,
    List.not_mem_nil, not_or, or_false, List.nodup_nil, and_true, not_false_eq_true] at hd
  obtain ⟨⟨a1, a2, a3, a4, a5⟩, ⟨b1, b2, b3, b4⟩, ⟨c1, c2, c3⟩, ⟨d1, d2⟩, e1⟩ := hd
  exact ⟨a1, a2, a3, a4, a5, b1, b2, b3, b4, c1, c2, c3, d1, d2, e1⟩

/-- The format switch on a packed label. -/
theorem format_switch_packed (ids : FourccIds) (be : Bool) (format_id : Nat)
    (h : format_id = ids.FOURCC_UYVY ∨ format_id = ids.FOURCC_YUY2
      ∨ format_id = ids.FOURCC_YVYU) :
    ∃ sh, format_switch ids be format_id = some (Layout.packed sh) := by
  unfold format_switch
  by_cases h1 : format_id = ids.FOURCC_UYVY
  · exact ⟨_, by rw [if_pos h1]⟩
  · by_cases h2 : format_id = ids.FOURCC_YUY2
    · exact ⟨_, by rw [if_neg h1, if_pos h2]⟩
    · have h3 : format_id = ids.FOURCC_YVYU := by tauto
      exact ⟨_, by rw [if_neg h1, if_neg h2, if_pos h3]⟩

/-- The format switch on `FOURCC_YV12`. -/
theorem format_switch_yv12 (ids : FourccIds) (be : Bool) (hd : ids.labels.Nodup) :
    format_switch ids be ids.FOURCC_YV12 = some (Layout.planar ⟨0, 2, 1⟩) := by
  obtain ⟨_, _, a3, _, _, _, b3, _, _, c3, _⟩ := labels_ne ids hd
  unfold format_switch
  rw [if_neg (Ne.symm a3), if_neg (Ne.symm b3), if_neg (Ne.symm c3), if_pos rfl]

/-- The format switch on `FOURCC_I420` or `FOURCC_IYUV`. -/
theorem format_switch_i420 (ids : FourccIds) (be : Bool) (hd : ids.labels.Nodup)
    (format_id : Nat)
    (h : format_id = ids.FOURCC_I420 ∨ format_id = ids.FOURCC_IYUV) :
    format_switch ids be format_id = some (Layout.planar ⟨0, 1, 2⟩) := by
  obtain ⟨_, _, _, a4, a5, _, _, b4, b5, _, c4, c5, d4, d5, _⟩ := labels_ne ids hd
  unfold format_switch
  rcases h with h | h
  · subst h
    rw [if_neg (Ne.symm a4), if_neg (Ne.symm b4), if_neg (Ne.symm c4), if_neg (Ne.symm d4),
      if_pos (Or.inl rfl)]
  · subst h
    rw [if_neg (Ne.symm a5), if_neg (Ne.symm b5), if_neg (Ne.symm c5), if_neg (Ne.symm d5),
      if_pos (Or.inr rfl)]

/-- The format switch on anything that is not a label. -/
theorem format_switch_other (ids : FourccIds) (be : Bool) (format_id : Nat)
    (h : format_id ∉ ids.labels) : format_switch ids be format_id = none := by
  simp only [FourccIds.labels, List.mem_cons, List.mem_singleton, List.not_mem_nil, or_false,
    not_or] at h
  obtain ⟨h1, h2, h3, h4, h5, h6⟩ := h
  unfold format_switch
  rw [if_neg h1, if_neg h2, if_neg h3, if_neg h4, if_neg (by tauto)]

/-- Once the layout is chosen, exactly one renderer is called, and its kind
follows `double_size`, the layout and `pal_mode`. -/
theorem render_yuv_image_of_layout (ids : FourccIds) (fast : Int) (be : Bool)
    (double_size double_scan pal_mode pal_scanline_shade : Int) (format_id : Nat)
    (a : RenderArea) (l : Layout) (hl : format_switch ids be format_id = some l) :
    ∃ c, render_yuv_image ids fast be double_size double_scan pal_mode pal_scanline_shade
          format_id a = [c]
      ∧ (c.is2x = true ↔ double_size ≠ 0)
      ∧ c.isPlanar = l.isPlanar
      ∧ (c.isPal = false ↔ pal_mode = fast) := by
  unfold render_yuv_image
  rw [hl]
  cases l with
  | packed sh =>
    by_cases h2 : double_size = 0 <;> by_cases hp : pal_mode = fast <;>
      simp [h2, hp, RenderCall.is2x, RenderCall.isPlanar, RenderCall.isPal, Layout.isPlanar]
  | planar pl =>
    by_cases h2 : double_size = 0 <;> by_cases hp : pal_mode = fast <;>
      simp [h2, hp, RenderCall.is2x, RenderCall.isPlanar, RenderCall.isPal, Layout.isPlanar]

/-- C11: `render_yuv_image` calls no renderer for a format id outside the six
labels and exactly one renderer for a label: a 2x renderer iff `double_size !=
0`, a planar 4:1:1 renderer iff the id is YV12, I420 or IYUV and a packed 4:2:2
one iff it is UYVY, YUY2 or YVYU, the plain renderer iff `pal_mode` is
`VIDEO_RESOURCE_PAL_MODE_FAST` and the PAL-emulation renderer otherwise. -/
theorem render_yuv_image_dispatch (ids : FourccIds) (fast : Int) (be : Bool)
    (double_size double_scan pal_mode pal_scanline_shade : Int) (format_id : Nat)
    (a : RenderArea) (hd : ids.labels.Nodup) :
    (format_id ∉ ids.labels →
        render_yuv_image ids fast be double_size double_scan pal_mode pal_scanline_shade
          format_id a = [])
    ∧ (format_id ∈ ids.labels →
        ∃ c, render_yuv_image ids fast be double_size double_scan pal_mode pal_scanline_shade
              format_id a = [c]
          ∧ (c.is2x = true ↔ double_size ≠ 0)
          ∧ (c.isPlanar = true ↔ (format_id = ids.FOURCC_YV12 ∨ format_id = ids.FOURCC_I420
                ∨ format_id = ids.FOURCC_IYUV))
          ∧ (c.isPlanar = false ↔ (format_id = ids.FOURCC_UYVY ∨ format_id = ids.FOURCC_YUY2
                ∨ format_id = ids.FOURCC_YVYU))
          ∧ (c.isPal = false ↔ pal_mode = fast)
          ∧ (c.isPal = true ↔ pal_mode ≠ fast)) := by
  obtain ⟨a1, a2, a3, a4, a5, b1, b2, b3, b4, c1, c2, c3, d1, d2, e1⟩ := labels_ne ids hd
  constructor
  · intro h
    unfold render_yuv_image
    rw [format_switch_other ids be format_id h]
  · intro h
    simp only [FourccIds.labels, List.mem_cons, List.mem_singleton, List.not_mem_nil,
      or_false] at h
    have hcases : (format_id = ids.FOURCC_UYVY ∨ format_id = ids.FOURCC_YUY2
        ∨ format_id = ids.FOURCC_YVYU)
        ∨ (format_id = ids.FOURCC_YV12 ∨ format_id = ids.FOURCC_I420
        ∨ format_id = ids.FOURCC_IYUV) := by
      rcases h with h | h | h | h | h | h
      · exact Or.inl (Or.inl h)
      · exact Or.inl (Or.inr (Or.inl h))
      · exact Or.inl (Or.inr (Or.inr h))
      · exact Or.inr (Or.inl h)
      · exact Or.inr (Or.inr (Or.inl h))
      · exact Or.inr (Or.inr (Or.inr h))
    rcases hcases with hp | hq
    · obtain ⟨sh, hsh⟩ := format_switch_packed ids be format_id hp
      obtain ⟨c, hc, h2x, hpl, hpal⟩ :=
        render_yuv_image_of_layout ids fast be double_size double_scan pal_mode
          pal_scanline_shade format_id a _ hsh
      have hnot : ¬ (format_id = ids.FOURCC_YV12 ∨ format_id = ids.FOURCC_I420
          ∨ format_id = ids.FOURCC_IYUV) := by
        rintro (hx | hx | hx) <;> rcases hp with hp | hp | hp <;> rw [hp] at hx <;>
          first
          | exact a3 hx | exact a4 hx | exact a5 hx | exact b2 hx | exact b3 hx
          | exact b4 hx | exact c1 hx | exact c2 hx | exact c3 hx
      refine ⟨c, hc, h2x, ?_, ?_, hpal, ?_⟩
      · rw [hpl]; simp [Layout.isPlanar, hnot]
      · rw [hpl]; simp [Layout.isPlanar, hp]
      · rw [Ne, ← hpal]; cases c.isPal <;> simp
    · have hsw : ∃ pl, format_switch ids be format_id = some (Layout.planar pl) := by
        rcases hq with hq | hq | hq
        · subst hq; exact ⟨_, format_switch_yv12 ids be hd⟩
        · exact ⟨_, format_switch_i420 ids be hd format_id (Or.inl hq)⟩
        · exact ⟨_, format_switch_i420 ids be hd format_id (Or.inr hq)⟩
      obtain ⟨pl, hplan⟩ := hsw
      obtain ⟨c, hc, h2x, hpl, hpal⟩ :=
        render_yuv_image_of_layout ids fast be double_size double_scan pal_mode
          pal_scanline_shade format_id a _ hplan
      have hnot : ¬ (format_id = ids.FOURCC_UYVY ∨ format_id = ids.FOURCC_YUY2
          ∨ format_id = ids.FOURCC_YVYU) := by
        rintro (hx | hx | hx) <;> rcases hq with hq | hq | hq <;> rw [hq] at hx <;>
          first
          | exact a3 hx.symm | exact a4 hx.symm | exact a5 hx.symm | exact b2 hx.symm
          | exact b3 hx.symm | exact b4 hx.symm | exact c1 hx.symm | exact c2 hx.symm
          | exact c3 hx.symm
      refine ⟨c, hc, h2x, ?_, ?_, hpal, ?_⟩
      · rw [hpl]; simp [Layout.isPlanar, hq]
      · rw [hpl]; simp [Layout.isPlanar, hnot]
      · rw [Ne, ← hpal]; cases c.isPal <;> simp

/-- Witness for C11: with the standard codes, a double-size YV12 request in
fast PAL mode calls one renderer, `render2x_4_1_1`: 2x, planar, not PAL. -/
theorem render_yuv_image_dispatch_witness :
    FourccIds.standard.labels.Nodup
    ∧ ∃ c, render_yuv_image FourccIds.standard 0 false 1 0 0 0 0x32315659
            ⟨384, 0, 0, 384, 272, 0, 0⟩ = [c]
        ∧ c.is2x = true ∧ c.isPlanar = true ∧ c.isPal = false := by
  refine ⟨by decide, ?_⟩
  obtain ⟨c, hc, h2x, hpl, _, hpal, _⟩ :=
    (render_yuv_image_dispatch FourccIds.standard 0 false 1 0 0 0 0x32315659
      ⟨384, 0, 0, 384, 272, 0, 0⟩ (by decide)).2 (by decide)
  exact ⟨c, hc, h2x.mpr (by decide), hpl.mpr (Or.inl rfl), hpal.mpr rfl⟩

/-- C12: `FOURCC_IYUV` is handled exactly as `FOURCC_I420`: the same single
renderer call with planes Y 0, U 1, V 2; `FOURCC_YV12` gives that call with the
U and V planes exchanged (Y 0, U 2, V 1) and nothing else changed. -/
theorem render_yuv_image_iyuv_as_i420 (ids : FourccIds) (fast : Int) (be : Bool)
    (double_size double_scan pal_mode pal_scanline_shade : Int) (a : RenderArea)
    (hd : ids.labels.Nodup) :
    render_yuv_image ids fast be double_size double_scan pal_mode pal_scanline_shade
        ids.FOURCC_IYUV a
      = render_yuv_image ids fast be double_size double_scan pal_mode pal_scanline_shade
        ids.FOURCC_I420 a
    ∧ (∃ c, render_yuv_image ids fast be double_size double_scan pal_mode pal_scanline_shade
          ids.FOURCC_I420 a = [c] ∧ c.planes = some ⟨0, 1, 2⟩)
    ∧ (∃ c, render_yuv_image ids fast be double_size double_scan pal_mode pal_scanline_shade
          ids.FOURCC_YV12 a = [c] ∧ c.planes = some ⟨0, 2, 1⟩)
    ∧ render_yuv_image ids fast be double_size double_scan pal_mode pal_scanline_shade
        ids.FOURCC_YV12 a
      = (render_yuv_image ids fast be double_size double_scan pal_mode pal_scanline_shade
          ids.FOURCC_I420 a).map RenderCall.swapUV := by
  have hi := format_switch_i420 ids be hd ids.FOURCC_I420 (Or.inl rfl)
  have hu := format_switch_i420 ids be hd ids.FOURCC_IYUV (Or.inr rfl)
  have hy := format_switch_yv12 ids be hd
  unfold render_yuv_image
  rw [hi, hu, hy]
  by_cases h2 : double_size = 0 <;> by_cases hp : pal_mode = fast <;>
    simp [h2, hp, RenderCall.planes, RenderCall.swapUV]

/-- Witness for C12: with the standard codes, single size, fast PAL mode, IYUV
and I420 both call `render_4_1_1` with planes 0, 1, 2. -/
theorem render_yuv_image_iyuv_as_i420_witness :
    FourccIds.standard.labels.Nodup
    ∧ render_yuv_image FourccIds.standard 0 false 0 0 0 0 FourccIds.standard.FOURCC_IYUV
          ⟨384, 0, 0, 384, 272, 0, 0⟩
        = render_yuv_image FourccIds.standard 0 false 0 0 0 0 FourccIds.standard.FOURCC_I420
          ⟨384, 0, 0, 384, 272, 0, 0⟩ :=
  ⟨by decide,
   (render_yuv_image_iyuv_as_i420 FourccIds.standard 0 false 0 0 0 0
      ⟨384, 0, 0, 384, 272, 0, 0⟩ (by decide)).1⟩

/-! ## Block normalisation -/

/-- One axis: as long as `src--` stays within `int`, the normalisation is
defined and aligns the axis; as long as `size++` does not wrap, the old extent
stays covered. -/
theorem normalize_axis_spec (dest src : Int) (size : Nat) (hd : -2 ^ 31 ≤ dest)
    (hs : -2 ^ 31 < src) :
    ∃ r, normalize_axis dest src size = some r ∧ Aligned dest src r
      ∧ (size + 2 < 2 ^ 32 → Covers dest size r) := by
  by_cases hodd : dest % 2 = 0
  · have e : normalize_axis dest src size
        = some { dest := dest, src := src
                 size := if size % 2 ≠ 0 then inc_uint size else size } := by
      unfold normalize_axis
      rw [if_neg (not_not.mpr hodd)]
    refine ⟨_, e, ?_⟩
    unfold Aligned Covers inc_uint
    by_cases hsz : size % 2 = 0
    · simp only [hsz, ne_eq, not_true_eq_false, if_false]
      refine ⟨⟨?_, ?_, ?_, ?_⟩, ?_⟩ <;> dsimp only <;> first | omega | simp
    · simp only [hsz, ne_eq, not_false_eq_true, if_true]
      refine ⟨⟨?_, ?_, ?_, ?_⟩, ?_⟩ <;> dsimp only <;> first | omega | simp
  · have hd2 : -2 ^ 31 < dest := by omega
    have e : normalize_axis dest src size
        = some { dest := dest - 1, src := src - 1
                 size := if inc_uint size % 2 ≠ 0 then inc_uint (inc_uint size)
                         else inc_uint size } := by
      unfold normalize_axis dec_int
      rw [if_pos hodd, if_pos hd2, if_pos hs]
    refine ⟨_, e, ?_⟩
    unfold Aligned Covers inc_uint
    by_cases hsz : (size + 1) % 2 ^ 32 % 2 = 0
    · simp only [hsz, ne_eq, not_true_eq_false, if_false]
      refine ⟨⟨?_, ?_, ?_, ?_⟩, ?_⟩ <;> dsimp only <;> first | omega | simp
    · simp only [hsz, ne_eq, not_false_eq_true, if_true]
      refine ⟨⟨?_, ?_, ?_, ?_⟩, ?_⟩ <;> dsimp only <;> first | omega | simp

/-- C18, as stated, fails: with `dest_x = 0`, `src_x = 0` and `src_w =
4294967295` the head of `render_4_2_2` increments the odd `src_w`, which wraps
to 0, so the new `dest_x + src_w` is 0 and no longer reaches the old
`dest_x + src_w`. -/
theorem render_4_2_2_normalize_wraps :
    render_4_2_2_normalize 0 0 4294967295 = some { dest := 0, src := 0, size := 0 }
    ∧ ¬ Covers 0 4294967295 { dest := 0, src := 0, size := 0 } := by
  decide

/-- C18, amended: for every `int` destination start, every `int` source start
above `INT_MIN` and every extent, the head of `render_4_2_2` leaves `dest_x`
and `src_w` even, `dest_x` the old one or one less and `src_x - dest_x`
unchanged; whenever `src_w <= 2^32 - 3`, so that its increments do not wrap,
the new `dest_x + src_w` is at least the old one.  The head of `render_4_1_1`
gives the same on the horizontal axis and, for `dest_y, src_y, src_h`, on the
vertical one. -/
theorem normalize_blocks_cover (dest_x src_x : Int) (src_w : Nat) (dest_y src_y : Int)
    (src_h : Nat)
    (hdx : -2 ^ 31 ≤ dest_x) (hsx : -2 ^ 31 < src_x)
    (hdy : -2 ^ 31 ≤ dest_y) (hsy : -2 ^ 31 < src_y) :
    (∃ h, render_4_2_2_normalize dest_x src_x src_w = some h
        ∧ Aligned dest_x src_x h
        ∧ (src_w + 2 < 2 ^ 32 → Covers dest_x src_w h))
    ∧ (∃ h v, render_4_1_1_normalize dest_x src_x src_w dest_y src_y src_h = some (h, v)
        ∧ Aligned dest_x src_x h ∧ Aligned dest_y src_y v
        ∧ (src_w + 2 < 2 ^ 32 → Covers dest_x src_w h)
        ∧ (src_h + 2 < 2 ^ 32 → Covers dest_y src_h v)) := by
  obtain ⟨h, hx, hxa, hxc⟩ := normalize_axis_spec dest_x src_x src_w hdx hsx
  obtain ⟨v, hy, hya, hyc⟩ := normalize_axis_spec dest_y src_y src_h hdy hsy
  refine ⟨⟨h, hx, hxa, hxc⟩, h, v, ?_, hxa, hya, hxc, hyc⟩
  unfold render_4_1_1_normalize
  rw [hx, hy]

/-- Witness for C18 amended: destination (3, 5), source (10, 20), extent 7 x 9
is normalised, aligned and still covered. -/
theorem normalize_blocks_cover_witness :
    ((-2 ^ 31 : Int) ≤ 3 ∧ (-2 ^ 31 : Int) < 10 ∧ (-2 ^ 31 : Int) ≤ 5 ∧ (-2 ^ 31 : Int) < 20)
    ∧ (∃ h, render_4_2_2_normalize 3 10 7 = some h ∧ Aligned 3 10 h ∧ Covers 3 7 h)
    ∧ (∃ h v, render_4_1_1_normalize 3 10 7 5 20 9 = some (h, v)
        ∧ Aligned 3 10 h ∧ Aligned 5 20 v ∧ Covers 3 7 h ∧ Covers 5 9 v) := by
  refine ⟨by norm_num, ?_⟩
  obtain ⟨⟨h, hx, hxa, hxc⟩, h2, v, hv, h2a, va, h2c, vc⟩ :=
    normalize_blocks_cover 3 10 7 5 20 9 (by norm_num) (by norm_num) (by norm_num)
      (by norm_num)
  exact ⟨⟨h, hx, hxa, hxc (by norm_num)⟩, h2, v, hv, h2a, va, h2c (by norm_num),
    vc (by norm_num)⟩

end RenderXv

namespace FfmpegWidget

/-! ## Format lookup -/

/-- The loop finds the first matching name before the terminator. -/
theorem format_index_loop_found (fmt : String) (behind : List gfxoutputdrv_format_t) :
    ∀ (names : List String) (k : Nat), fmt ∈ names →
      ∃ i : Nat, format_index_loop fmt (terminated names behind) k = some ((k + i : Nat) : Int)
        ∧ i < names.length ∧ names[i]? = some fmt
        ∧ ∀ j, j < i → names[j]? ≠ some fmt := by
  intro names
  induction names with
  | nil => intro k h; exact absurd h (List.not_mem_nil _)
  | cons n ns ih =>
    intro k h
    by_cases hn : n = fmt
    · refine ⟨0, ?_, by simp, by simp [hn], fun j hj => absurd hj (Nat.not_lt_zero j)⟩
      simp [terminated, format_index_loop, hn]
    · have hmem : fmt ∈ ns := by
        rcases List.mem_cons.mp h with h | h
        · exact absurd h.symm hn
        · exact h
      obtain ⟨i, hi, hlt, hget, hmin⟩ := ih (k + 1) hmem
      refine ⟨i + 1, ?_, by simp [hlt], by simpa using hget, ?_⟩
      · have hstep : format_index_loop fmt (terminated (n :: ns) behind) k
            = format_index_loop fmt (terminated ns behind) (k + 1) := by
          simp [terminated, format_index_loop, hn]
        rw [hstep, hi]
        congr 2
        omega
      · intro j hj
        cases j with
        | zero => simpa using hn
        | succ j => simpa using hmin j (by omega)

/-- The loop reaches the terminator when no name matches. -/
theorem format_index_loop_not_found (fmt : String) (behind : List gfxoutputdrv_format_t) :
    ∀ (names : List String) (k : Nat), fmt ∉ names →
      format_index_loop fmt (terminated names behind) k = some (-1) := by
  intro names
  induction names with
  | nil => intro k _; simp [terminated, format_index_loop]
  | cons n ns ih =>
    intro k h
    have hn : ¬ n = fmt := fun e => h (by simp [e])
    have hmem : fmt ∉ ns := fun e => h (List.mem_cons_of_mem _ e)
    have hstep : format_index_loop fmt (terminated (n :: ns) behind) k
        = format_index_loop fmt (terminated ns behind) (k + 1) := by
      simp [terminated, format_index_loop, hn]
    rw [hstep, ih (k + 1) hmem]

/-- C17: on a driver whose format list holds `names` followed by the
terminating null entry, `get_format_index_by_name` returns the smallest index
`i` with `names[i] == fmt` (so `0 <= i < length`) when some name equals `fmt`,
and -1 when none does; with `driver_info` null it returns -1. -/
theorem get_format_index_by_name_spec (drv : String) (names : List String)
    (behind : List gfxoutputdrv_format_t) (fmt : String) :
    (fmt ∈ names →
        ∃ i : Nat, get_format_index_by_name
              (some { name := drv, formatlist := terminated names behind }) fmt
            = some (i : Int)
          ∧ i < names.length ∧ names[i]? = some fmt
          ∧ ∀ j, j < i → names[j]? ≠ some fmt)
    ∧ (fmt ∉ names →
        get_format_index_by_name
            (some { name := drv, formatlist := terminated names behind }) fmt
          = some (-1))
    ∧ get_format_index_by_name none fmt = some (-1) := by
  refine ⟨?_, ?_, rfl⟩
  · intro h
    obtain ⟨i, hi, hlt, hget, hmin⟩ := format_index_loop_found fmt behind names 0 h
    refine ⟨i, ?_, hlt, hget, hmin⟩
    show format_index_loop fmt (terminated names behind) 0 = _
    rw [hi]
    congr 2
    omega
  · intro h
    exact format_index_loop_not_found fmt behind names 0 h

/-- Witness for C17: in the list avi, mp4, ogg the name "mp4" is found and
"flv" is not. -/
theorem get_format_index_by_name_spec_witness :
    (∃ i : Nat, get_format_index_by_name
          (some { name := "FFMPEG", formatlist := terminated ["avi", "mp4", "ogg"] [] }) "mp4"
        = some (i : Int) ∧ i < 3)
    ∧ get_format_index_by_name
          (some { name := "FFMPEG", formatlist := terminated ["avi", "mp4", "ogg"] [] }) "flv"
        = some (-1) := by
  have h := get_format_index_by_name_spec "FFMPEG" ["avi", "mp4", "ogg"] [] "mp4"
  have h2 := get_format_index_by_name_spec "FFMPEG" ["avi", "mp4", "ogg"] [] "flv"
  obtain ⟨i, hi, hlt, _⟩ := h.1 (by decide)
  exact ⟨⟨i, hi, hlt⟩, h2.2.1 (by decide)⟩

end FfmpegWidget
